import Mathlib

/-!
A shallow embedding of the provider pool manager
(`src/provider-pool-manager.js`) of the AIClient-2-API repository, together
with proofs about its selection, health-marking, probing and persistence
behaviour.

Conventions of the embedding:
* JS numbers that hold integral counters are modelled as `Nat`/`Int`.
* Wall-clock timestamps (stored by the code as ISO-8601 strings) are
  modelled as natural numbers (milliseconds); the code only ever writes
  `new Date().toISOString()` and compares timestamps via `getTime()`, so
  the string representation is immaterial to the modelled behaviour.
* `null`/`undefined`-able fields are `Option` types; JS truthiness tests
  that the code performs on them are modelled explicitly.
* Fallible adapter calls are oracles passed in as `Except`-valued
  arguments.
* Logging, timers and the actual file I/O are omitted; the persistence
  flush is modelled as a pure function of the pending set, the in-memory
  state and the outcome of the disk read.
-/

namespace PoolManager

/-- JS truthiness of an optional string (`null`, `undefined` and `""` are falsy). -/
def jsTruthyStr : Option String → Bool
  | none => false
  | some s => !(s == "")

/-- `a || b` on optional strings, as JS evaluates it (truthiness of `a`). -/
def jsOrStr (a b : Option String) : Option String :=
  if jsTruthyStr a then a else b

/-- The quota snapshot object built by `_analyzeUsageHealth` (lines 678-687)
and cached on an entry as `usageInfo`. -/
structure UsageInfo where
  used : Int
  limit : Int
  remaining : Int
  usagePercent : Int
  nextReset : Option String
  daysUntilReset : Option Int
  subscription : Option String
  email : Option String
  deriving Repr, DecidableEq

/-- One provider entry of a pool, with the mutable status fields the manager
maintains (the fields written by `initializeProviderStatus`, lines 77-94,
plus the configuration fields the manager reads: `notSupportedModels`,
`checkModelName`, `checkHealth`).  Timestamps are milliseconds. -/
structure ProviderConfig where
  uuid : String
  isHealthy : Bool := true
  isDisabled : Bool := false
  lastUsed : Option Nat := none
  usageCount : Nat := 0
  errorCount : Nat := 0
  lastErrorTime : Option Nat := none
  lastErrorMessage : Option String := none
  lastHealthCheckTime : Option Nat := none
  lastHealthCheckModel : Option String := none
  usageInfo : Option UsageInfo := none
  notSupportedModels : Option (List String) := none
  checkModelName : Option String := none
  checkHealth : Bool := false
  deriving Repr, DecidableEq

/-- `_findProvider` followed by a mutation of the found entry: the JS code
looks up the first entry whose `uuid` matches and mutates that object in
place (`pool?.find(p => p.uuid === uuid)`, line 64).  Entries before the
first match, and every entry after it, are untouched. -/
def updateFirst (uuid : String) (f : ProviderConfig → ProviderConfig) :
    List ProviderConfig → List ProviderConfig
  | [] => []
  | c :: rest =>
    if c.uuid == uuid then f c :: rest else c :: updateFirst uuid f rest

/-- The entry update performed by `markProviderHealthy` (lines 246-264). -/
def healthyUpdate (now : Nat) (resetUsageCount : Bool)
    (healthCheckModel : Option String) (c : ProviderConfig) : ProviderConfig :=
  let c1 := { c with isHealthy := true, errorCount := 0, lastErrorTime := none,
                     lastErrorMessage := none, lastHealthCheckTime := some now }
  let c2 := if jsTruthyStr healthCheckModel then
              { c1 with lastHealthCheckModel := healthCheckModel } else c1
  if resetUsageCount then { c2 with usageCount := 0 }
  else { c2 with usageCount := c2.usageCount + 1, lastUsed := some now }

/-- `markProviderHealthy(providerType, providerConfig, resetUsageCount,
healthCheckModel)` (lines 239-269).  A falsy (empty) uuid is rejected by the
`!providerConfig?.uuid` guard and the call is a no-op. -/
def markProviderHealthy (now : Nat) (uuid : String) (resetUsageCount : Bool)
    (healthCheckModel : Option String) (pool : List ProviderConfig) :
    List ProviderConfig :=
  if uuid == "" then pool
  else updateFirst uuid (healthyUpdate now resetUsageCount healthCheckModel) pool

/-- The entry update performed by `markProviderUnhealthy` (lines 213-226). -/
def unhealthyUpdate (maxErrorCount : Nat) (now : Nat)
    (errorMessage : Option String) (c : ProviderConfig) : ProviderConfig :=
  let c1 := { c with errorCount := c.errorCount + 1, lastErrorTime := some now }
  let c2 := if jsTruthyStr errorMessage then
              { c1 with lastErrorMessage := errorMessage } else c1
  if maxErrorCount ≤ c2.errorCount then { c2 with isHealthy := false } else c2

/-- `markProviderUnhealthy(providerType, providerConfig, errorMessage)`
(lines 205-230). -/
def markProviderUnhealthy (maxErrorCount now : Nat) (uuid : String)
    (errorMessage : Option String) (pool : List ProviderConfig) :
    List ProviderConfig :=
  if uuid == "" then pool
  else updateFirst uuid (unhealthyUpdate maxErrorCount now errorMessage) pool

/-- `resetProviderCounters(providerType, providerConfig)` (lines 276-290):
zero `errorCount` and `usageCount` of the found entry, touch nothing else. -/
def resetProviderCounters (uuid : String) (pool : List ProviderConfig) :
    List ProviderConfig :=
  if uuid == "" then pool
  else updateFirst uuid (fun c => { c with errorCount := 0, usageCount := 0 }) pool

/-- `disableProvider` (lines 297-309). -/
def disableProvider (uuid : String) (pool : List ProviderConfig) :
    List ProviderConfig :=
  if uuid == "" then pool
  else updateFirst uuid (fun c => { c with isDisabled := true }) pool

/-- `enableProvider` (lines 316-328). -/
def enableProvider (uuid : String) (pool : List ProviderConfig) :
    List ProviderConfig :=
  if uuid == "" then pool
  else updateFirst uuid (fun c => { c with isDisabled := false }) pool

/-- The state update `_tryRecoverProvider` applies when a forced recovery
probe fails (lines 736-744): store the probe's error message, stamp
`lastHealthCheckTime`, and record the probe model when truthy.  Neither
`isHealthy` nor `lastErrorTime` nor `errorCount` is touched. -/
def recoveryFailureUpdate (now : Nat) (uuid : String)
    (errorMessage modelName : Option String) (pool : List ProviderConfig) :
    List ProviderConfig :=
  updateFirst uuid (fun c =>
    let c1 := { c with lastErrorMessage := errorMessage,
                       lastHealthCheckTime := some now }
    if jsTruthyStr modelName then { c1 with lastHealthCheckModel := modelName }
    else c1) pool

/-- The state update `_checkProviderHealthByUsage` applies after analysing a
quota snapshot (lines 598-602): cache the snapshot and stamp the check time. -/
def usageProbeUpdate (now : Nat) (uuid : String) (info : UsageInfo)
    (pool : List ProviderConfig) : List ProviderConfig :=
  updateFirst uuid (fun c =>
    { c with usageInfo := some info, lastHealthCheckTime := some now }) pool

/-- The model filter of `selectProvider` (lines 129-134): an entry is kept
unless its `notSupportedModels` array contains the requested model; an
absent (`null`) field keeps the entry. -/
def allowsModel (requestedModel : Option String) (c : ProviderConfig) : Bool :=
  match requestedModel with
  | none => true
  | some m =>
    match c.notSupportedModels with
    | none => true
    | some l => !(l.contains m)

/-- The auto-recovery sweep of `selectProvider` applied to one enabled entry
(lines 151-163): an unhealthy entry with a (truthy) `lastErrorTime` at least
`healthCheckInterval` in the past gets its `lastErrorTime` overwritten with
`now` (debouncing duplicate recovery probes).  The asynchronous probe
dispatch itself is outside this state transition. -/
def sweepEntry (interval now : Nat) (c : ProviderConfig) : ProviderConfig :=
  if !c.isHealthy then
    match c.lastErrorTime with
    | some t =>
      if (interval : Int) ≤ (now : Int) - (t : Int) then
        { c with lastErrorTime := some now }
      else c
    | none => c
  else c

/-- Indices of the entries that survive the disabled filter (line 125) and
the model filter (lines 128-141) of `selectProvider`, in stable pool order. -/
def enabledIndices (requestedModel : Option String)
    (pool : List ProviderConfig) : List Nat :=
  (((pool.enum.filter fun ic => !ic.2.isDisabled).filter fun ic =>
      allowsModel requestedModel ic.2).map Prod.fst)

/-- The pool after the recovery sweep of `selectProvider`: the sweep runs
over exactly the enabled (and model-allowed) entries.  The JS code mutates
those entries through the references held by `enabledProviders`; here the
same mutation is applied by position. -/
def sweptPool (interval now : Nat) (requestedModel : Option String)
    (pool : List ProviderConfig) : List ProviderConfig :=
  pool.enum.map fun ic =>
    if (enabledIndices requestedModel pool).contains ic.1 then
      sweepEntry interval now ic.2
    else ic.2

/-- The candidate list of `selectProvider` (lines 166-174): healthy enabled
entries preferred, the whole enabled list as fallback.  `sweepEntry` never
changes `isHealthy`, `isDisabled` or `notSupportedModels`, so filtering the
swept pool coincides with the code reading the mutated entry objects. -/
def candidateIndices (interval now : Nat) (requestedModel : Option String)
    (pool : List ProviderConfig) : List Nat :=
  let e := enabledIndices requestedModel pool
  let p2 := sweptPool interval now requestedModel pool
  let h := e.filter fun i => ((p2[i]?).map (·.isHealthy)).getD false
  if h.isEmpty then e else h

/-- The usage bump of a selected entry (lines 188-192, `skipUsageCount`
not set): `lastUsed = now`, `usageCount` incremented. -/
def bumpUsage (now : Nat) (c : ProviderConfig) : ProviderConfig :=
  { c with lastUsed := some now, usageCount := c.usageCount + 1 }

/-- The outcome of one `selectProvider` call: the returned configuration
(`null` when no provider is available), the pool state afterwards and the
stored round-robin index afterwards.  The round-robin index modelled here is
the one stored under the `indexKey` this call uses (`providerType` alone
when no model is requested, else `providerType + ":" + requestedModel`,
line 177); a fresh key reads as 0 (`|| 0`, line 178). -/
structure SelectResult where
  selected : Option ProviderConfig
  pool : List ProviderConfig
  rrIndex : Nat
  deriving Repr, DecidableEq

/-- `selectProvider` (lines 115-197) for one provider family.  The two
empty-list early returns of the code (lines 136-139 and 143-146) both
return `null` before the sweep runs and before any index is touched, so
they are merged into one test. -/
def selectProvider (interval now : Nat) (requestedModel : Option String)
    (skipUsageCount : Bool) (pool : List ProviderConfig) (rrIndex : Nat) :
    SelectResult :=
  let enabledIdx := enabledIndices requestedModel pool
  if enabledIdx.isEmpty then ⟨none, pool, rrIndex⟩
  else
    let pool2 := sweptPool interval now requestedModel pool
    let candIdx := candidateIndices interval now requestedModel pool
    let providerIndex := rrIndex % candIdx.length
    match candIdx[providerIndex]? with
    | none => ⟨none, pool2, rrIndex⟩
    | some i =>
      let newRR := (rrIndex + 1) % candIdx.length
      match pool2[i]? with
      | none => ⟨none, pool2, newRR⟩
      | some c =>
        if skipUsageCount then ⟨some c, pool2, newRR⟩
        else
          let c2 := bumpUsage now c
          ⟨some c2, pool2.set i c2, newRR⟩

/-- `k` successive `selectProvider` calls with no requested model and
without `skipUsageCount`, threading pool and round-robin index, collecting
the returned configurations in call order. -/
def selectRun (interval now : Nat) :
    Nat → List ProviderConfig → Nat →
      List (Option ProviderConfig) × List ProviderConfig × Nat
  | 0, pool, rr => ([], pool, rr)
  | k + 1, pool, rr =>
    let r := selectProvider interval now none false pool rr
    let rest := selectRun interval now k r.pool r.rrIndex
    (r.selected :: rest.1, rest.2.1, rest.2.2)

/-- How many of the `k` selections starting from stored index `rr` land on
pool position `i` (`n` the candidate count): the number of `j < k` with
`(rr + j) % n = i`. -/
def cntSel (n rr k i : Nat) : Nat :=
  ((List.range k).filter fun j => (rr + j) % n == i).length

/-- First entry of the two-entry round-robin scenario pool. -/
def c3A : ProviderConfig :=
  { uuid := "A" }

/-- Second entry of the two-entry round-robin scenario pool. -/
def c3B : ProviderConfig :=
  { uuid := "B" }

/-- A concrete entry used by the C7 witness. -/
def c7entryA : ProviderConfig :=
  { uuid := "a", errorCount := 2 }

/-- The second entry of the C7 witness pool. -/
def c7entryB : ProviderConfig :=
  { uuid := "b", usageCount := 7, errorCount := 3, isHealthy := false, lastErrorTime := some 1 }

/-- The first entry of the C9 witness pool. -/
def c9entryA : ProviderConfig :=
  { uuid := "a", errorCount := 4, usageCount := 9, isHealthy := false,
    lastErrorTime := some 3, lastErrorMessage := some "boom" }

/-- The second entry of the C9 witness pool. -/
def c9entryB : ProviderConfig :=
  { uuid := "b" }

/-- A JSON value, as held by the on-disk pool document and by probe
payloads.  Numbers are modelled as integers (the pool document only
carries integral counters; timestamps are strings). -/
inductive JVal where
  | null : JVal
  | bool : Bool → JVal
  | num : Int → JVal
  | str : String → JVal
  | arr : List JVal → JVal
  | obj : List (String × JVal) → JVal

/-- JS truthiness of a JSON value (`null`, `false`, `0` and `""` are falsy;
arrays and objects are always truthy). -/
def jsTruthy : JVal → Bool
  | .null => false
  | .bool b => b
  | .num n => n != 0
  | .str s => s != ""
  | .arr _ => true
  | .obj _ => true

/-- Whether a JSON value is `null`. -/
def isNull : JVal → Bool
  | .null => true
  | _ => false

/-- Whether a JSON value is the boolean `false`. -/
def isBoolFalse : JVal → Bool
  | .bool false => true
  | _ => false

/-- Property read on a JSON object (association list; the first binding
wins — a parsed JSON object holds no duplicate keys). -/
def objGet : List (String × JVal) → String → Option JVal
  | [], _ => none
  | kv :: rest, k => if kv.1 == k then some kv.2 else objGet rest k

/-- Property write on a JSON object: overwrite the first binding of the
key in place (JS keeps the insertion position of an existing property),
append a new binding otherwise. -/
def objSet : List (String × JVal) → String → JVal → List (String × JVal)
  | [], k, v => [(k, v)]
  | kv :: rest, k, v =>
    if kv.1 == k then (k, v) :: rest else kv :: objSet rest k v

/-- `x !== undefined ? x : d` applied to a property: the defaulting used
by `initializeProviderStatus` for `isHealthy`, `isDisabled`, `lastUsed`,
`usageCount` and `errorCount` (lines 77-81). -/
def defaultPresent (e : List (String × JVal)) (k : String) (d : JVal) :
    List (String × JVal) :=
  objSet e k ((objGet e k).getD d)

/-- `x || null` applied to a property: the normalisation used by
`initializeProviderStatus` for `lastErrorTime` (the `instanceof Date`
branch of line 84 is vacuous on a parsed JSON document),
`lastHealthCheckTime`, `lastHealthCheckModel`, `lastErrorMessage` and
`usageInfo` (lines 84-94). -/
def defaultTruthy (e : List (String × JVal)) (k : String) :
    List (String × JVal) :=
  objSet e k (match objGet e k with
    | some v => if jsTruthy v then v else .null
    | none => .null)

/-- The per-entry normalisation of `initializeProviderStatus`
(lines 77-94), in the order the code assigns the fields.  All other keys
(e.g. `_comment`, `_originalId`, credentials) are left untouched. -/
def initEntry (e : List (String × JVal)) : List (String × JVal) :=
  let e1 := defaultPresent e "isHealthy" (.bool true)
  let e2 := defaultPresent e1 "isDisabled" (.bool false)
  let e3 := defaultPresent e2 "lastUsed" .null
  let e4 := defaultPresent e3 "usageCount" (.num 0)
  let e5 := defaultPresent e4 "errorCount" (.num 0)
  let e6 := defaultTruthy e5 "lastErrorTime"
  let e7 := defaultTruthy e6 "lastHealthCheckTime"
  let e8 := defaultTruthy e7 "lastHealthCheckModel"
  let e9 := defaultTruthy e8 "lastErrorMessage"
  defaultTruthy e9 "usageInfo"

/-- `initializeProviderStatus` applied to one array element of a family:
object entries are normalised in place.  (A non-object element would make
the JS property assignments throw; such documents are outside the
well-formed domain used below.) -/
def initVal : JVal → JVal
  | .obj e => .obj (initEntry e)
  | v => v

/-- The in-memory `providerStatus` list for one family, as the flush
projects it (lines 801-814): the manager stores references to the entry
objects of the loaded document, normalised by `initializeProviderStatus`;
the `{...p.config}` copy with its vacuous `instanceof Date` conversions is
the identity on JSON values.  `none` when the family is absent (or not an
array, in which case initialisation would have thrown). -/
def statusOf (doc : List (String × JVal)) (t : String) :
    Option (List JVal) :=
  match objGet doc t with
  | some (.arr entries) => some (entries.map initVal)
  | _ => none

/-- The outcome of the flush's single `readFile` (lines 787-796). -/
inductive ReadOutcome where
  | ok : List (String × JVal) → ReadOutcome
  | enoent : ReadOutcome
  | fail : String → ReadOutcome

/-- Merging the pending families into the on-disk document
(lines 798-818): each pending type with in-memory state replaces the
document's family array with the projection of the in-memory entries; a
pending type without in-memory state is skipped (warned).  Families not
pending are left untouched. -/
def mergePendingIntoDoc (status : String → Option (List JVal))
    (types : List String) (doc : List (String × JVal)) :
    List (String × JVal) :=
  types.foldl (fun d t =>
    match status t with
    | some entries => objSet d t (.arr entries)
    | none => d) doc

/-- `_flushPendingSaves` (lines 775-826) as a function of the pending set,
the in-memory state and the disk-read outcome.  Returns the pending set
after the call, the document written (`none` when nothing is written) and
the abort message (`some msg` when a non-ENOENT read error was rethrown
into the outer catch, which only logs).  Note that the pending set is
cleared on line 779, before the read is attempted. -/
def flushPendingSaves (pending : List String)
    (status : String → Option (List JVal)) (read : ReadOutcome) :
    List String × Option (List (String × JVal)) × Option String :=
  if pending.isEmpty then (pending, none, none)
  else
    match read with
    | .fail msg => ([], none, some msg)
    | .enoent => ([], some (mergePendingIntoDoc status pending []), none)
    | .ok doc => ([], some (mergePendingIntoDoc status pending doc), none)

/-- The status keys `initializeProviderStatus` defaults by presence. -/
def presentKeys : List String :=
  ["isHealthy", "isDisabled", "lastUsed", "usageCount", "errorCount"]

/-- The status keys `initializeProviderStatus` normalises via `x || null`. -/
def truthyKeys : List String :=
  ["lastErrorTime", "lastHealthCheckTime", "lastHealthCheckModel",
    "lastErrorMessage", "usageInfo"]

/-- A nullable status field is either `null` or truthy. -/
def truthyKeyWF (e : List (String × JVal)) (k : String) : Bool :=
  match objGet e k with
  | some v => jsTruthy v || isNull v
  | none => false

/-- An entry that already carries every status field, the nullable ones
being `null` or truthy: exactly the entries `initializeProviderStatus`
leaves untouched. -/
def entryWF (e : List (String × JVal)) : Bool :=
  (presentKeys.all fun k => (objGet e k).isSome) &&
  (truthyKeys.all (truthyKeyWF e))

/-- A family value is well formed when it is an array of well-formed
object entries. -/
def familyWF : JVal → Bool
  | .arr entries => entries.all fun v =>
      match v with
      | .obj e => entryWF e
      | _ => false
  | _ => false

/-- A pool document is well formed when every family it stores is. -/
def docWF (doc : List (String × JVal)) : Bool :=
  doc.all fun kv => familyWF kv.2

/-- The unhealthy-implies-error-time invariant on a provider entry. -/
def entryInv (c : ProviderConfig) : Prop :=
  c.isHealthy = false → c.lastErrorTime ≠ none

/-- The invariant over a whole family pool. -/
def poolInv (pool : List ProviderConfig) : Prop :=
  ∀ c ∈ pool, entryInv c

/-- The unhealthy-implies-truthy-error-time condition on a raw document
entry (before or after initialisation): if the entry reads as
`isHealthy == false`, its `lastErrorTime` property is truthy. -/
def entryInvJ (e : List (String × JVal)) : Prop :=
  isBoolFalse ((objGet e "isHealthy").getD .null) = true →
    jsTruthy ((objGet e "lastErrorTime").getD .null) = true

/-- A free-trial sub-bucket of a Kiro usage breakdown item. -/
structure FreeTrial where
  status : Option String := none
  currentUsage : Option Int := none
  usageLimit : Option Int := none
  deriving Repr, DecidableEq

/-- A bonus sub-bucket of a Kiro usage breakdown item. -/
structure Bonus where
  status : Option String := none
  currentUsage : Option Int := none
  usageLimit : Option Int := none
  deriving Repr, DecidableEq

/-- One item of the normalised usage snapshot's `usageBreakdown`. -/
structure UsageBreakdownItem where
  currentUsage : Option Int := none
  usageLimit : Option Int := none
  freeTrial : Option FreeTrial := none
  bonuses : Option (List Bonus) := none
  deriving Repr, DecidableEq

/-- The subscription part of the normalised usage snapshot. -/
structure Subscription where
  title : Option String := none
  type : Option String := none
  deriving Repr, DecidableEq

/-- The user part of the normalised usage snapshot. -/
structure UserInfo where
  email : Option String := none
  deriving Repr, DecidableEq

/-- The normalised usage snapshot `formatKiroUsage` produces and
`_analyzeUsageHealth` consumes. -/
structure FormattedUsage where
  usageBreakdown : Option (List UsageBreakdownItem) := none
  nextDateReset : Option String := none
  daysUntilReset : Option Int := none
  subscription : Option Subscription := none
  user : Option UserInfo := none
  deriving Repr, DecidableEq

/-- The bonus step of the `_analyzeUsageHealth` aggregation loop
(lines 659-671): each `ACTIVE` bonus contributes its usage and limit and
can establish `hasActiveQuota`. -/
def accumulateBonus (a : Int × Int × Bool) (bo : Bonus) :
    Int × Int × Bool :=
  if bo.status == some "ACTIVE" then
    (a.1 + bo.currentUsage.getD 0, a.2.1 + bo.usageLimit.getD 0,
      a.2.2 || (decide (0 < bo.usageLimit.getD 0) &&
        decide (bo.currentUsage.getD 0 < bo.usageLimit.getD 0)))
  else a

/-- One iteration of the `_analyzeUsageHealth` aggregation loop
(lines 635-672) over `(totalUsed, totalLimit, hasActiveQuota)`: the main
bucket, then an `ACTIVE` free trial, then the `ACTIVE` bonuses.
`x || 0` on the numbers coincides with defaulting an absent value to 0. -/
def accumulateBreakdown (acc : Int × Int × Bool) (b : UsageBreakdownItem) :
    Int × Int × Bool :=
  let used := b.currentUsage.getD 0
  let lim := b.usageLimit.getD 0
  let acc1 : Int × Int × Bool :=
    (acc.1 + used, acc.2.1 + lim,
      acc.2.2 || (decide (0 < lim) && decide (used < lim)))
  let acc2 : Int × Int × Bool :=
    match b.freeTrial with
    | some ft =>
      if ft.status == some "ACTIVE" then
        (acc1.1 + ft.currentUsage.getD 0, acc1.2.1 + ft.usageLimit.getD 0,
          acc1.2.2 || (decide (0 < ft.usageLimit.getD 0) &&
            decide (ft.currentUsage.getD 0 < ft.usageLimit.getD 0)))
      else acc1
    | none => acc1
  match b.bonuses with
  | some bl => bl.foldl accumulateBonus acc2
  | none => acc2

/-- The aggregation of `_analyzeUsageHealth` over the whole
`usageBreakdown || []` array. -/
def aggregateUsage (fu : FormattedUsage) : Int × Int × Bool :=
  (fu.usageBreakdown.getD []).foldl accumulateBreakdown (0, 0, false)

/-- `Math.round((totalUsed / totalLimit) * 100)` for `totalLimit > 0`:
`Math.round x = ⌊x + 1/2⌋`, and `⌊100·u/l + 1/2⌋ = ⌊(200·u + l) / (2·l)⌋`
(floor division). -/
def jsRoundRatio100 (used limit : Int) : Int :=
  Int.fdiv (200 * used + limit) (2 * limit)

/-- The verdict record `_analyzeUsageHealth` returns (lines 708-713). -/
structure HealthAnalysis where
  success : Bool
  errorMessage : Option String
  usageInfo : UsageInfo
  summary : String
  deriving Repr, DecidableEq

/-- `_analyzeUsageHealth(providerType, formattedUsage, providerConfig)`
(lines 627-714).  The error messages are the literal strings of the code
(in Chinese): `配额已用完 (used/limit)` — "quota exhausted" — and
`没有可用的活跃配额` — "no active quota". -/
def analyzeUsageHealth (fu : FormattedUsage) : HealthAnalysis :=
  let agg := aggregateUsage fu
  let totalUsed := agg.1
  let totalLimit := agg.2.1
  let hasActiveQuota := agg.2.2
  let remaining := totalLimit - totalUsed
  let usagePercent :=
    if 0 < totalLimit then jsRoundRatio100 totalUsed totalLimit else 0
  let usageInfo : UsageInfo :=
    { used := totalUsed, limit := totalLimit, remaining := remaining,
      usagePercent := usagePercent,
      nextReset := fu.nextDateReset,
      daysUntilReset := fu.daysUntilReset,
      subscription := jsOrStr (fu.subscription.bind (·.title))
        (fu.subscription.bind (·.type)),
      email := fu.user.bind (·.email) }
  let isHealthy := hasActiveQuota && decide (0 < remaining)
  if isHealthy then
    { success := true, errorMessage := none, usageInfo := usageInfo,
      summary := toString totalUsed ++ "/" ++ toString totalLimit ++
        " (" ++ toString usagePercent ++ "% 已用, 剩余 " ++
        toString remaining ++ ")" }
  else if remaining ≤ 0 then
    { success := false,
      errorMessage := some ("配额已用完 (" ++ toString totalUsed ++ "/" ++
        toString totalLimit ++ ")"),
      usageInfo := usageInfo,
      summary := "配额已用完 (" ++ toString totalUsed ++ "/" ++
        toString totalLimit ++ ")" }
  else if !hasActiveQuota then
    { success := false, errorMessage := some "没有可用的活跃配额",
      usageInfo := usageInfo, summary := "没有可用的活跃配额" }
  else
    { success := false, errorMessage := none, usageInfo := usageInfo,
      summary := "" }

/-- An `ACTIVE` bonus with quota left. -/
def bonusActive (bo : Bonus) : Prop :=
  bo.status = some "ACTIVE" ∧ 0 < bo.usageLimit.getD 0 ∧
    bo.currentUsage.getD 0 < bo.usageLimit.getD 0

/-- The spec's notion of one breakdown item contributing an active
sub-bucket: the main bucket, an `ACTIVE` free trial, or an `ACTIVE`
bonus has `usageLimit > 0 ∧ currentUsage < usageLimit`. -/
def itemHasActiveBucket (b : UsageBreakdownItem) : Prop :=
  (0 < b.usageLimit.getD 0 ∧ b.currentUsage.getD 0 < b.usageLimit.getD 0) ∨
  (∃ ft, b.freeTrial = some ft ∧ ft.status = some "ACTIVE" ∧
    0 < ft.usageLimit.getD 0 ∧ ft.currentUsage.getD 0 < ft.usageLimit.getD 0) ∨
  (∃ bl, b.bonuses = some bl ∧ ∃ bo ∈ bl, bonusActive bo)

/-- The spec's notion of the snapshot having active quota: some
contributing sub-bucket is active. -/
def hasActiveBucket (fu : FormattedUsage) : Prop :=
  ∃ b ∈ fu.usageBreakdown.getD [], itemHasActiveBucket b

/-- `s.startsWith(p)` on strings, computed on the character lists (the
same prefix relation as `String.startsWith`, in a form the kernel can
evaluate). -/
def strStartsWith (s p : String) : Bool :=
  p.data.isPrefixOf s.data

/-- The fixed per-family default probe models
(`DEFAULT_HEALTH_CHECK_MODELS`, lines 12-20). -/
def DEFAULT_HEALTH_CHECK_MODELS : String → Option String
  | "gemini-cli-oauth" => some "gemini-2.5-flash"
  | "gemini-antigravity" => some "gemini-2.5-flash"
  | "openai-custom" => some "gpt-3.5-turbo"
  | "claude-custom" => some "claude-3-7-sonnet-20250219"
  | "claude-kiro-oauth" => some "claude-haiku-4-5"
  | "openai-qwen-oauth" => some "qwen3-coder-flash"
  | "openaiResponses-custom" => some "gpt-4o-mini"
  | _ => none

/-- Modelled from the spec: the `MODEL_PROVIDER` constant table lives in
`common.js`, which is not among the sources; per the spec the usage-based
(Mode A) set is exactly the Kiro OAuth family `claude-kiro-oauth`. -/
def MODEL_PROVIDER_KIRO_API : String := "claude-kiro-oauth"

/-- Modelled from the spec: the `openaiResponses-custom` family key of the
`MODEL_PROVIDER` table in `common.js` (not among the sources). -/
def MODEL_PROVIDER_OPENAI_RESPONSES : String := "openaiResponses-custom"

/-- `providerConfig.checkModelName || DEFAULT_HEALTH_CHECK_MODELS[type]`
(lines 466-467). -/
def resolveHealthCheckModel (checkModelName : Option String)
    (providerType : String) : Option String :=
  jsOrStr checkModelName (DEFAULT_HEALTH_CHECK_MODELS providerType)

/-- The `{role: 'user', content: 'Hi'}` base message of
`_buildHealthCheckRequests` (line 398). -/
def baseMessage : JVal :=
  .obj [("role", .str "user"), ("content", .str "Hi")]

/-- The Gemini-style `contents` payload (lines 402-410). -/
def geminiContentsPayload : JVal :=
  .obj [("contents", .arr [.obj [("role", .str "user"),
    ("parts", .arr [.obj [("text", .str "Hi")]])]])]

/-- The first (chat-style) payload for the Kiro family (lines 415-419). -/
def kiroChatPayload (modelName : String) : JVal :=
  .obj [("messages", .arr [baseMessage]), ("model", .str modelName),
    ("max_tokens", .num 1)]

/-- The fallback `contents` payload for the Kiro family (lines 421-427). -/
def kiroContentsPayload : JVal :=
  .obj [("contents", .arr [.obj [("role", .str "user"),
    ("parts", .arr [.obj [("text", .str "Hi")]])]]), ("max_tokens", .num 1)]

/-- `_buildHealthCheckRequests(providerType, modelName)` (lines 397-447). -/
def buildHealthCheckRequests (providerType : String) (modelName : String) :
    List JVal :=
  if strStartsWith providerType "gemini" then
    [geminiContentsPayload]
  else if strStartsWith providerType "claude-kiro" then
    [kiroChatPayload modelName, kiroContentsPayload]
  else if providerType == MODEL_PROVIDER_OPENAI_RESPONSES then
    [.obj [("input", .arr [baseMessage]), ("model", .str modelName)]]
  else
    [.obj [("messages", .arr [baseMessage]), ("model", .str modelName)]]

/-- A health probe outcome (`{success, modelName, errorMessage,
usageInfo}`). -/
structure HealthResult where
  success : Bool
  modelName : Option String
  errorMessage : Option String
  usageInfo : Option UsageInfo := none
  deriving Repr, DecidableEq

/-- The payload retry loop of `_checkProviderHealth` (lines 512-530):
attempt the payloads in order; the first successful `generateContent`
call wins; otherwise remember the last error.  `gen` is the adapter call
as a deterministic oracle from payload to success or thrown message; the
exhausted case applies `lastError?.message || 'All health check attempts
failed'`. -/
def healthCheckLoop (gen : JVal → Except String Unit) (modelName : String) :
    List JVal → Option String → HealthResult
  | [], lastError =>
    { success := false, modelName := some modelName,
      errorMessage := jsOrStr lastError (some "All health check attempts failed") }
  | r :: rest, lastError =>
    match gen r with
    | .ok _ =>
      { success := true, modelName := some modelName, errorMessage := none }
    | .error e => healthCheckLoop gen modelName rest (some e)

/-- `_checkProviderHealthByUsage` (lines 543-617) as a function of the
adapter oracle.  `hasGetUsageLimits` models the capability test of
line 545; `usageFetch` models `getUsageLimits()` composed with
`formatKiroUsage` (the parser lives in `usage-service.js`, outside the
sources): a thrown error anywhere in the `try` block lands in the `catch`
and yields `null`; `ok none` is a parse failure (`formatKiroUsage`
returned a falsy value); `ok (some fu)` is a parsed snapshot.  The token
refresh attempts of lines 554-572 only log and never change the result.
The `usageInfo`/`lastHealthCheckTime` entry update it performs is
`usageProbeUpdate`. -/
def checkProviderHealthByUsage (providerType : String)
    (hasGetUsageLimits : Bool)
    (usageFetch : Except String (Option FormattedUsage)) :
    Option HealthResult :=
  if !hasGetUsageLimits then none
  else
    match usageFetch with
    | .error _ => none
    | .ok parsed =>
      if providerType != MODEL_PROVIDER_KIRO_API then none
      else
        match parsed with
        | none => some { success := false, modelName := none,
                         errorMessage := some "Failed to parse usage data",
                         usageInfo := none }
        | some fu =>
          let ha := analyzeUsageHealth fu
          some { success := ha.success, modelName := none,
                 errorMessage := if ha.success then none else ha.errorMessage,
                 usageInfo := some ha.usageInfo }

/-- `_checkProviderHealth(providerType, providerConfig, forceCheck)`
(lines 464-531): resolve the probe model, gate on
`checkHealth || forceCheck`, try the usage-based probe first for the
usage-based set (`[MODEL_PROVIDER.KIRO_API].includes(providerType)`), and
fall back to the chat-send retry loop when it returns `null`. -/
def checkProviderHealth (providerType : String)
    (checkModelName : Option String) (checkHealth forceCheck : Bool)
    (hasGetUsageLimits : Bool)
    (usageFetch : Except String (Option FormattedUsage))
    (gen : JVal → Except String Unit) : Option HealthResult :=
  let modelName := resolveHealthCheckModel checkModelName providerType
  if !checkHealth && !forceCheck then none
  else
    let usageResult :=
      if providerType == MODEL_PROVIDER_KIRO_API then
        checkProviderHealthByUsage providerType hasGetUsageLimits usageFetch
      else none
    match usageResult with
    | some r => some r
    | none =>
      match modelName with
      | none => some { success := false, modelName := none,
                       errorMessage := some "Unknown provider type for health check",
                       usageInfo := none }
      | some m =>
        some (healthCheckLoop gen m (buildHealthCheckRequests providerType m) none)

/-- A raw document entry whose `isHealthy` is false while `lastErrorTime`
is absent (used to refute C2's initialisation part). -/
def c2entry0 : List (String × JVal) :=
  [("uuid", .str "a"), ("isHealthy", .bool false)]

/-- A minimal pool document whose only entry lacks every status field. -/
def c5doc : List (String × JVal) :=
  [("openai-custom", .arr [.obj [("uuid", .str "a")]])]

/-- A fully populated entry carrying human annotations. -/
def c5wfentry : List (String × JVal) :=
  [("uuid", .str "a"), ("_comment", .str "human note"),
   ("_originalId", .str "orig-1"),
   ("isHealthy", .bool true), ("isDisabled", .bool false),
   ("lastUsed", .null), ("usageCount", .num 4), ("errorCount", .num 0),
   ("lastErrorTime", .null),
   ("lastHealthCheckTime", .str "2026-01-01T00:00:00.000Z"),
   ("lastHealthCheckModel", .str "claude-haiku-4-5"),
   ("lastErrorMessage", .null), ("usageInfo", .null)]

/-- A well-formed two-family document built from `c5wfentry`. -/
def c5wfdoc : List (String × JVal) :=
  [("openai-custom", .arr [.obj c5wfentry]),
   ("claude-kiro-oauth", .arr [])]

/-- The snapshot of the Kiro quota-exhaustion scenario:
`usageBreakdown = [{currentUsage: 100, usageLimit: 100}]`. -/
def c4snapshot : FormattedUsage :=
  { usageBreakdown := some [{ currentUsage := some 100, usageLimit := some 100 }] }

/-- An adapter-call oracle that rejects `messages`-shaped payloads and
accepts anything else (the Kiro fallback scenario). -/
def c6gen : JVal → Except String Unit
  | .obj (("messages", _) :: _) => .error "Improperly formed request"
  | _ => .ok ()

/-- An adapter-call oracle that accepts every payload. -/
def c8gen : JVal → Except String Unit := fun _ => .ok ()

/-- An in-memory state map with no families (used by the C1 witness). -/
def c1status : String → Option (List JVal) := fun _ => none

/-- A concrete pool satisfying the unhealthy-implies-error-time invariant. -/
def c2pool : List ProviderConfig :=
  [{ uuid := "u1", isHealthy := false, lastErrorTime := some 3 },
   { uuid := "u2" }]

/-- A raw unhealthy entry with a truthy `lastErrorTime`. -/
def c2wfentry : List (String × JVal) :=
  [("uuid", .str "x"), ("isHealthy", .bool false),
   ("lastErrorTime", .str "2026-01-01T00:00:00.000Z")]

/-- A concrete cached usage snapshot value. -/
def c2info : UsageInfo :=
  { used := 1, limit := 2, remaining := 1, usagePercent := 50,
    nextReset := none, daysUntilReset := none, subscription := none,
    email := none }

section UpdateFirstLemmas

/-- `updateFirst` rewrites exactly the first matching position and leaves
every other position unchanged. -/
theorem updateFirst_getElem (uuid : String) (f : ProviderConfig → ProviderConfig) :
    ∀ (pool : List ProviderConfig) (i : Nat) (e : ProviderConfig),
      pool[i]? = some e → e.uuid = uuid →
      (∀ j, j < i → ∀ e', pool[j]? = some e' → e'.uuid ≠ uuid) →
      (updateFirst uuid f pool)[i]? = some (f e) ∧
        ∀ j, j ≠ i → (updateFirst uuid f pool)[j]? = pool[j]?
  | [], i, e, h, _, _ => by simp at h
  | c :: rest, 0, e, h, hm, _ => by
    simp only [List.getElem?_cons_zero, Option.some.injEq] at h
    subst h
    have hc : (c.uuid == uuid) = true := by simp [hm]
    constructor
    · simp [updateFirst, hc]
    · intro j hj
      match j with
      | 0 => exact absurd rfl hj
      | j + 1 => simp [updateFirst, hc]
  | c :: rest, i + 1, e, h, hm, hfirst => by
    have hc : (c.uuid == uuid) = false := by
      have := hfirst 0 (Nat.succ_pos i) c (by simp)
      simpa using this
    have hrest := updateFirst_getElem uuid f rest i e
      (by simpa using h) hm
      (fun j hj e' he' => hfirst (j + 1) (Nat.succ_lt_succ hj) e' (by simpa using he'))
    constructor
    · simpa [updateFirst, hc] using hrest.1
    · intro j hj
      match j with
      | 0 => simp [updateFirst, hc]
      | j + 1 =>
        have := hrest.2 j (fun hji => hj (by simp [hji]))
        simpa [updateFirst, hc] using this

/-- `updateFirst` preserves the length of the pool. -/
theorem updateFirst_length (uuid : String) (f : ProviderConfig → ProviderConfig) :
    ∀ pool : List ProviderConfig, (updateFirst uuid f pool).length = pool.length
  | [] => rfl
  | c :: rest => by
    by_cases hc : (c.uuid == uuid) = true
    · simp [updateFirst, hc]
    · simp only [Bool.not_eq_true] at hc
      simp [updateFirst, hc, updateFirst_length uuid f rest]

/-- Every entry of an `updateFirst` image is an old entry or the image of an
old entry under the update. -/
theorem updateFirst_mem (uuid : String) (f : ProviderConfig → ProviderConfig) :
    ∀ (pool : List ProviderConfig) (c' : ProviderConfig),
      c' ∈ updateFirst uuid f pool → c' ∈ pool ∨ ∃ c ∈ pool, c' = f c
  | [], c', h => by simp [updateFirst] at h
  | c :: rest, c', h => by
    by_cases hc : (c.uuid == uuid) = true
    · simp only [updateFirst, hc, if_true, List.mem_cons] at h
      rcases h with h | h
      · exact Or.inr ⟨c, List.mem_cons_self c rest, h⟩
      · exact Or.inl (List.mem_cons_of_mem c h)
    · simp only [Bool.not_eq_true] at hc
      simp only [updateFirst, hc, Bool.false_eq_true, if_false, List.mem_cons] at h
      rcases h with h | h
      · exact Or.inl (h ▸ List.mem_cons_self c rest)
      · rcases updateFirst_mem uuid f rest c' h with h | ⟨d, hd, hfd⟩
        · exact Or.inl (List.mem_cons_of_mem c h)
        · exact Or.inr ⟨d, List.mem_cons_of_mem c hd, hfd⟩

end UpdateFirstLemmas

section SelectorLemmas

/-- The recovery sweep either leaves an entry alone or only overwrites its
`lastErrorTime` with `now`. -/
theorem sweepEntry_cases (interval now : Nat) (c : ProviderConfig) :
    sweepEntry interval now c = c ∨
      sweepEntry interval now c = { c with lastErrorTime := some now } := by
  unfold sweepEntry
  cases hh : c.isHealthy
  · cases hle : c.lastErrorTime with
    | none => simp
    | some t =>
      by_cases hcmp : (interval : Int) ≤ (now : Int) - (t : Int) <;> simp [hcmp]
  · simp

/-- The sweep never changes the health flag. -/
theorem sweepEntry_isHealthy (interval now : Nat) (c : ProviderConfig) :
    (sweepEntry interval now c).isHealthy = c.isHealthy := by
  rcases sweepEntry_cases interval now c with h | h <;> simp [h]

/-- A healthy entry passes through the sweep unchanged. -/
theorem sweepEntry_of_healthy (interval now : Nat) (c : ProviderConfig)
    (h : c.isHealthy = true) : sweepEntry interval now c = c := by
  unfold sweepEntry
  simp [h]

/-- Position `i` is an enabled (and model-allowed) index iff the entry at
`i` is not disabled and supports the requested model. -/
theorem mem_enabledIndices {m : Option String} {pool : List ProviderConfig}
    {i : Nat} :
    i ∈ enabledIndices m pool ↔
      ∃ c, pool[i]? = some c ∧ c.isDisabled = false ∧
        allowsModel m c = true := by
  unfold enabledIndices
  constructor
  · intro h
    obtain ⟨⟨j, c⟩, hmem, hfst⟩ := List.mem_map.mp h
    obtain ⟨hmem1, hmod⟩ := List.mem_filter.mp hmem
    obtain ⟨hmem0, hdis⟩ := List.mem_filter.mp hmem1
    have hget := List.mem_enum_iff_getElem?.mp hmem0
    cases hfst
    exact ⟨c, hget, by simpa using hdis, hmod⟩
  · rintro ⟨c, hget, hdis, hmod⟩
    refine List.mem_map.mpr ⟨⟨i, c⟩, List.mem_filter.mpr ⟨List.mem_filter.mpr
      ⟨List.mem_enum_iff_getElem?.mpr hget, by simp [hdis]⟩, hmod⟩, rfl⟩

/-- An enabled index is in range. -/
theorem enabledIndices_lt {m : Option String} {pool : List ProviderConfig}
    {i : Nat} (h : i ∈ enabledIndices m pool) : i < pool.length := by
  obtain ⟨c, hget, -, -⟩ := mem_enabledIndices.mp h
  have := List.getElem?_eq_some.mp hget
  exact this.1

/-- The swept pool has the same length as the pool. -/
theorem sweptPool_length (interval now : Nat) (m : Option String)
    (pool : List ProviderConfig) :
    (sweptPool interval now m pool).length = pool.length := by
  simp [sweptPool]

/-- Positionwise description of the swept pool. -/
theorem sweptPool_getElem? (interval now : Nat) (m : Option String)
    (pool : List ProviderConfig) (i : Nat) :
    (sweptPool interval now m pool)[i]? =
      pool[i]?.map fun c =>
        if (enabledIndices m pool).contains i then sweepEntry interval now c
        else c := by
  unfold sweptPool
  rw [List.getElem?_map, List.getElem?_enum]
  cases pool[i]? <;> simp

/-- Every candidate index is an enabled index. -/
theorem candidateIndices_subset {interval now : Nat} {m : Option String}
    {pool : List ProviderConfig} {i : Nat}
    (h : i ∈ candidateIndices interval now m pool) :
    i ∈ enabledIndices m pool := by
  unfold candidateIndices at h
  by_cases he : ((enabledIndices m pool).filter fun i =>
      (((sweptPool interval now m pool)[i]?).map (·.isHealthy)).getD false).isEmpty
  · simpa [he] using h
  · simp only [he, if_false] at h
    exact (List.mem_filter.mp h).1

/-- If the candidate list is non-empty then so is the enabled list. -/
theorem candidateIndices_ne_nil {interval now : Nat} {m : Option String}
    {pool : List ProviderConfig}
    (h : candidateIndices interval now m pool ≠ []) :
    enabledIndices m pool ≠ [] := by
  intro he
  apply h
  unfold candidateIndices
  simp [he]

/-- On a pool whose entries are all enabled and healthy, a `selectProvider`
call with no requested model reduces to the plain round-robin step: pick
the entry at position `rr % n`, bump its usage, advance the stored index
modulo `n`. -/
theorem select_step_all_healthy (interval now rr : Nat)
    (pool : List ProviderConfig) (hne : pool ≠ [])
    (hall : ∀ c ∈ pool, c.isDisabled = false ∧ c.isHealthy = true)
    (c : ProviderConfig) (hc : pool[rr % pool.length]? = some c) :
    selectProvider interval now none false pool rr =
      ⟨some (bumpUsage now c), pool.set (rr % pool.length) (bumpUsage now c),
        (rr + 1) % pool.length⟩ := by
  have hn : 0 < pool.length := List.length_pos.mpr hne
  have hf1 : (pool.enum.filter fun ic => !ic.2.isDisabled) = pool.enum := by
    refine List.filter_eq_self.mpr ?_
    intro ic hic
    have hmem : ic.2 ∈ pool :=
      List.getElem?_mem (List.mem_enum_iff_getElem?.mp hic)
    simp [(hall ic.2 hmem).1]
  have hf2 : (pool.enum.filter fun ic => allowsModel none ic.2) = pool.enum :=
    List.filter_eq_self.mpr fun ic _ => rfl
  have hen : enabledIndices none pool = List.range pool.length := by
    rw [enabledIndices, hf1, hf2, List.enum_map_fst]
  have hsw : sweptPool interval now none pool = pool := by
    apply List.ext_getElem?
    intro i
    rw [sweptPool_getElem?]
    cases hpi : pool[i]? with
    | none => rfl
    | some d =>
      have hmem : d ∈ pool := List.getElem?_mem hpi
      simp [sweepEntry_of_healthy interval now d (hall d hmem).2]
  have hrange : (List.range pool.length).isEmpty = false := by
    cases h : List.range pool.length with
    | nil => exfalso; rw [List.range_eq_nil] at h; omega
    | cons a l => rfl
  have hcand : candidateIndices interval now none pool =
      List.range pool.length := by
    simp only [candidateIndices]
    rw [hsw, hen]
    have hfl : ((List.range pool.length).filter fun i =>
        ((pool[i]?).map (·.isHealthy)).getD false) = List.range pool.length := by
      refine List.filter_eq_self.mpr ?_
      intro i hi
      have hilt : i < pool.length := List.mem_range.mp hi
      have hg : pool[i]? = some (pool.get ⟨i, hilt⟩) :=
        List.getElem?_eq_getElem hilt
      have hmem : pool.get ⟨i, hilt⟩ ∈ pool := List.getElem_mem hilt
      rw [hg]
      simpa using (hall _ hmem).2
    rw [hfl, hrange]
    simp
  have hempty : (enabledIndices none pool).isEmpty = false := by
    rw [hen]; exact hrange
  rw [selectProvider]
  simp only [hempty, Bool.false_eq_true, if_false]
  rw [hcand, hsw, List.length_range,
    List.getElem?_range (Nat.mod_lt _ hn)]
  simp only []
  rw [hc]

section RoundRobinCount

/-- No selections, no hits. -/
theorem cntSel_zero (n rr i : Nat) : cntSel n rr 0 i = 0 := rfl

/-- Peeling the first selection off the hit count. -/
theorem cntSel_succ_left (n rr k i : Nat) :
    cntSel n rr (k + 1) i =
      (if rr % n = i then 1 else 0) + cntSel n (rr + 1) k i := by
  unfold cntSel
  rw [List.range_succ_eq_map, List.filter_cons, List.filter_map]
  have hfun : ((fun j => (rr + j) % n == i) ∘ Nat.succ) =
      (fun j => ((rr + 1) + j) % n == i) := by
    funext j
    simp only [Function.comp]
    have h1 : rr + Nat.succ j = (rr + 1) + j := by omega
    rw [h1]
  rw [hfun]
  by_cases h : rr % n = i <;> simp [h] <;> omega

/-- The hit count only depends on the starting index modulo `n`. -/
theorem cntSel_mod_left (n rr k i : Nat) :
    cntSel n (rr % n) k i = cntSel n rr k i := by
  unfold cntSel
  congr 1
  apply List.filter_congr
  intro j _
  have : (rr % n + j) % n = (rr + j) % n := Nat.mod_add_mod rr n j
  rw [this]

/-- Closed form of the round-robin hit count from a fresh index: position
`i < n` is hit `⌊k/n⌋` times, plus once more when `i < k % n`. -/
theorem cntSel_closed (n i : Nat) (hn : 0 < n) (hi : i < n) :
    ∀ k, cntSel n 0 k i = k / n + if i < k % n then 1 else 0
  | 0 => by simp [cntSel]
  | k + 1 => by
    have IH := cntSel_closed n i hn hi k
    have hsplit : cntSel n 0 (k + 1) i =
        cntSel n 0 k i + (if k % n = i then 1 else 0) := by
      unfold cntSel
      rw [List.range_succ, List.filter_append, List.length_append]
      congr 1
      by_cases h : k % n = i
      · simp [List.filter, beq_iff_eq, h]
      · have hb : (k % n == i) = false := beq_eq_false_iff_ne.mpr h
        simp [List.filter, hb, h]
    rw [hsplit, IH]
    have hmod : k % n < n := Nat.mod_lt _ hn
    have hdm : n * (k / n) + k % n = k := Nat.div_add_mod k n
    rcases Nat.lt_or_ge (k % n + 1) n with hlt | hge
    · have e1 : k + 1 = n * (k / n) + (k % n + 1) := by omega
      have hq : (k + 1) / n = k / n := by
        rw [e1, Nat.mul_add_div hn, Nat.div_eq_of_lt hlt, Nat.add_zero]
      have hr : (k + 1) % n = k % n + 1 := by
        rw [e1, Nat.mul_add_mod, Nat.mod_eq_of_lt hlt]
      rw [hq, hr]
      split_ifs <;> omega
    · have heq : k % n + 1 = n := by omega
      have e2 : n * (k / n + 1) = n * (k / n) + n := Nat.mul_succ n (k / n)
      have e1 : k + 1 = n * (k / n + 1) := by omega
      have hq : (k + 1) / n = k / n + 1 := by
        rw [e1, Nat.mul_div_right _ hn]
      have hr : (k + 1) % n = 0 := by
        rw [e1]; exact Nat.mul_mod_right n _
      rw [hq, hr]
      split_ifs <;> omega

/-- When `k` is not a multiple of `n`, the ceiling of `k/n` is `⌊k/n⌋ + 1`. -/
theorem ceil_div_of_mod_ne_zero (n k : Nat) (hn : 0 < n) (hr : k % n ≠ 0) :
    (k + n - 1) / n = k / n + 1 := by
  have hmod : k % n < n := Nat.mod_lt _ hn
  have hdm : n * (k / n) + k % n = k := Nat.div_add_mod k n
  have e2 : n * (k / n + 1) = n * (k / n) + n := Nat.mul_succ n (k / n)
  have e1 : k + n - 1 = n * (k / n + 1) + (k % n - 1) := by omega
  have hlt2 : (k % n - 1) / n = 0 := Nat.div_eq_of_lt (by omega)
  rw [e1, Nat.mul_add_div hn, hlt2]

end RoundRobinCount

section SelectRunLemmas

/-- Main induction for C3: on an all-healthy, all-enabled pool, `k`
successive selections return the entries in stable input order cyclically
from the stored index, and each entry's `usageCount` grows by exactly the
number of times its position was hit. -/
theorem selectRun_spec (interval now : Nat) :
    ∀ (k : Nat) (pool : List ProviderConfig) (rr : Nat),
      pool ≠ [] → (∀ c ∈ pool, c.isDisabled = false ∧ c.isHealthy = true) →
      ((selectRun interval now k pool rr).1.map (fun o => o.map (·.uuid)) =
        (List.range k).map fun j => (pool[(rr + j) % pool.length]?).map (·.uuid)) ∧
      (∀ i, ((selectRun interval now k pool rr).2.1)[i]?.map (·.usageCount) =
        (pool[i]?).map fun c => c.usageCount + cntSel pool.length rr k i) ∧
      ((selectRun interval now k pool rr).2.1.length = pool.length)
  | 0, pool, rr, _, _ => by
    refine ⟨by simp [selectRun], fun i => ?_, by simp [selectRun]⟩
    simp only [selectRun, cntSel_zero]
    cases pool[i]? <;> simp
  | k + 1, pool, rr, hne, hall => by
    have hn : 0 < pool.length := List.length_pos.mpr hne
    have hmod : rr % pool.length < pool.length := Nat.mod_lt _ hn
    have hc : pool[rr % pool.length]? =
        some (pool.get ⟨rr % pool.length, hmod⟩) :=
      List.getElem?_eq_getElem hmod
    set c := pool.get ⟨rr % pool.length, hmod⟩ with hcdef
    have hstep := select_step_all_healthy interval now rr pool hne hall c hc
    set pool1 := pool.set (rr % pool.length) (bumpUsage now c) with hpool1
    have hlen1 : pool1.length = pool.length := by
      rw [hpool1]; exact List.length_set pool _ _
    have hne1 : pool1 ≠ [] :=
      List.ne_nil_of_length_pos (by rw [hlen1]; exact hn)
    have hcmem : c ∈ pool := List.getElem?_mem hc
    have hall1 : ∀ d ∈ pool1, d.isDisabled = false ∧ d.isHealthy = true := by
      intro d hd
      rcases List.mem_or_eq_of_mem_set hd with hd' | hd'
      · exact hall d hd'
      · subst hd'
        exact ⟨(hall c hcmem).1, (hall c hcmem).2⟩
    have IH := selectRun_spec interval now k pool1 ((rr + 1) % pool.length)
      hne1 hall1
    have hrun : selectRun interval now (k + 1) pool rr =
        ((some (bumpUsage now c)) ::
          (selectRun interval now k pool1 ((rr + 1) % pool.length)).1,
          (selectRun interval now k pool1 ((rr + 1) % pool.length)).2) := by
      show (let r := selectProvider interval now none false pool rr
            let rest := selectRun interval now k r.pool r.rrIndex
            (r.selected :: rest.1, rest.2.1, rest.2.2)) = _
      rw [hstep]
    have hget1 : ∀ j : Nat, pool1[j]?.map (·.uuid) = pool[j]?.map (·.uuid) := by
      intro j
      by_cases hji : j = rr % pool.length
      · subst hji
        rw [hpool1, List.getElem?_set_eq hmod, hc]
        simp [bumpUsage]
      · rw [hpool1, List.getElem?_set_ne (fun h => hji h.symm)]
    refine ⟨?_, ?_, ?_⟩
    · rw [hrun]
      simp only [List.map_cons]
      rw [List.range_succ_eq_map, List.map_cons]
      congr 1
      · rw [Nat.add_zero, hc]
        simp [bumpUsage]
      · rw [List.map_map, IH.1, hlen1]
        apply List.map_congr_left
        intro j _
        rw [hget1]
        have : ((rr + 1) % pool.length + j) % pool.length =
            (rr + Nat.succ j) % pool.length := by
          rw [Nat.mod_add_mod]
          congr 1
          omega
        rw [this]
        rfl
    · intro i
      rw [hrun]
      show (selectRun interval now k pool1 ((rr + 1) % pool.length)).2.1[i]?.map
        (·.usageCount) = _
      rw [IH.2.1 i, hlen1]
      have hcnt : cntSel pool.length ((rr + 1) % pool.length) k i =
          cntSel pool.length (rr + 1) k i := cntSel_mod_left _ _ _ _
      by_cases hji : i = rr % pool.length
      · subst hji
        rw [hpool1, List.getElem?_set_eq hmod, hc, hcnt, cntSel_succ_left]
        simp [bumpUsage]
        omega
      · have hne2 : ¬(rr % pool.length = i) := fun h => hji h.symm
        rw [hpool1, List.getElem?_set_ne hne2, hcnt, cntSel_succ_left]
        simp [hne2]
    · rw [hrun]
      show (selectRun interval now k pool1 ((rr + 1) % pool.length)).2.1.length = _
      rw [IH.2.2, hlen1]

end SelectRunLemmas

end SelectorLemmas

section ObjectLemmas

/-- Writing back the value a key already holds is the identity. -/
theorem objSet_of_objGet_eq (k : String) (v : JVal) :
    ∀ e : List (String × JVal), objGet e k = some v → objSet e k v = e
  | [], h => by simp [objGet] at h
  | (k1, v1) :: rest, h => by
    by_cases hk : (k1 == k) = true
    · have hk' : k1 = k := by simpa using hk
      have hv : v1 = v := by
        rw [objGet] at h
        simp only [hk, if_true, Option.some.injEq] at h
        exact h
      subst hk'
      subst hv
      simp [objSet]
    · have hk'' : (k1 == k) = false := by simpa using hk
      have hg : objGet rest k = some v := by
        rw [objGet] at h
        simpa only [hk'', Bool.false_eq_true, if_false] using h
      rw [objSet]
      simp only [hk'', Bool.false_eq_true, if_false]
      rw [objSet_of_objGet_eq k v rest hg]

/-- Reading the key just written. -/
theorem objGet_objSet_self (k : String) (v : JVal) :
    ∀ e : List (String × JVal), objGet (objSet e k v) k = some v
  | [] => by simp [objGet, objSet]
  | (k1, v1) :: rest => by
    by_cases hk : (k1 == k) = true
    · rw [objSet]
      simp [hk, objGet]
    · have hk'' : (k1 == k) = false := by simpa using hk
      rw [objSet]
      simp only [hk'', Bool.false_eq_true, if_false]
      rw [objGet]
      simp only [hk'', Bool.false_eq_true, if_false]
      exact objGet_objSet_self k v rest

/-- Writing one key does not change another. -/
theorem objGet_objSet_ne (k k' : String) (hne : k ≠ k') (v : JVal) :
    ∀ e : List (String × JVal), objGet (objSet e k v) k' = objGet e k'
  | [] => by
    have : (k == k') = false := by simpa using hne
    simp [objGet, objSet, this]
  | (k1, v1) :: rest => by
    by_cases hk : (k1 == k) = true
    · have hk' : k1 = k := by simpa using hk
      subst hk'
      have h2 : (k1 == k') = false := by simpa using hne
      rw [objSet]
      simp only [beq_self_eq_true, if_true]
      rw [objGet, objGet]
      simp only [h2, Bool.false_eq_true, if_false]
    · have hk'' : (k1 == k) = false := by simpa using hk
      rw [objSet]
      simp only [hk'', Bool.false_eq_true, if_false]
      rw [objGet, objGet]
      by_cases h1 : (k1 == k') = true
      · simp [h1]
      · have h1' : (k1 == k') = false := by simpa using h1
        simp only [h1', Bool.false_eq_true, if_false]
        exact objGet_objSet_ne k k' hne v rest

/-- A successful read exhibits a binding of the object. -/
theorem objGet_mem (k : String) (v : JVal) :
    ∀ e : List (String × JVal), objGet e k = some v → (k, v) ∈ e
  | [], h => by simp [objGet] at h
  | (k1, v1) :: rest, h => by
    by_cases hk : (k1 == k) = true
    · have hk' : k1 = k := by simpa using hk
      rw [objGet] at h
      simp only [hk, if_true, Option.some.injEq] at h
      subst hk'
      subst h
      exact List.mem_cons_self _ _
    · have hk'' : (k1 == k) = false := by simpa using hk
      rw [objGet] at h
      simp only [hk'', Bool.false_eq_true, if_false] at h
      exact List.mem_cons_of_mem _ (objGet_mem k v rest h)

/-- A present key makes `defaultPresent` the identity. -/
theorem defaultPresent_id (e : List (String × JVal)) (k : String) (d : JVal)
    (h : (objGet e k).isSome = true) : defaultPresent e k d = e := by
  obtain ⟨v, hv⟩ := Option.isSome_iff_exists.mp h
  rw [defaultPresent, hv]
  exact objSet_of_objGet_eq k v e hv

/-- A null-or-truthy present key makes `defaultTruthy` the identity. -/
theorem defaultTruthy_id (e : List (String × JVal)) (k : String)
    (h : truthyKeyWF e k = true) : defaultTruthy e k = e := by
  rw [truthyKeyWF] at h
  cases hg : objGet e k with
  | none => rw [hg] at h; simp at h
  | some v =>
    rw [hg] at h
    rw [defaultTruthy, hg]
    simp only []
    by_cases ht : jsTruthy v = true
    · rw [if_pos ht]
      exact objSet_of_objGet_eq k v e hg
    · have ht' : jsTruthy v = false := by simpa using ht
      simp only [ht', Bool.false_or] at h
      have hvn : v = .null := by
        cases v <;> simp [isNull] at h ⊢
      rw [ht']
      simp only [Bool.false_eq_true, if_false]
      rw [hvn] at hg
      exact objSet_of_objGet_eq k .null e hg

/-- A well-formed entry passes through `initializeProviderStatus`
untouched. -/
theorem initEntry_id (e : List (String × JVal)) (h : entryWF e = true) :
    initEntry e = e := by
  rw [entryWF] at h
  simp only [presentKeys, truthyKeys, List.all_cons, List.all_nil,
    Bool.and_true, Bool.and_eq_true] at h
  obtain ⟨⟨hp1, hp2, hp3, hp4, hp5⟩, hq1, hq2, hq3, hq4, hq5⟩ := h
  rw [initEntry]
  rw [defaultPresent_id e _ _ hp1, defaultPresent_id e _ _ hp2,
    defaultPresent_id e _ _ hp3, defaultPresent_id e _ _ hp4,
    defaultPresent_id e _ _ hp5, defaultTruthy_id e _ hq1,
    defaultTruthy_id e _ hq2, defaultTruthy_id e _ hq3,
    defaultTruthy_id e _ hq4, defaultTruthy_id e _ hq5]

/-- A well-formed family array passes through initialisation untouched. -/
theorem initVal_map_id :
    ∀ entries : List JVal,
      (entries.all fun v => match v with
        | .obj e => entryWF e
        | _ => false) = true →
      entries.map initVal = entries
  | [], _ => rfl
  | v :: rest, h => by
    rw [List.all_cons, Bool.and_eq_true] at h
    rw [List.map_cons, initVal_map_id rest h.2]
    cases hv : v with
    | obj e =>
      rw [hv] at h
      rw [initVal, initEntry_id e h.1]
    | null => simp [initVal]
    | bool b => simp [initVal]
    | num n => simp [initVal]
    | str s => simp [initVal]
    | arr l => simp [initVal]

/-- Flushing families of a well-formed document writes back exactly the
arrays that were read. -/
theorem mergePending_id (doc : List (String × JVal))
    (hwf : docWF doc = true) :
    ∀ types : List String,
      mergePendingIntoDoc (statusOf doc) types doc = doc
  | [] => rfl
  | t :: ts => by
    have hstep : (match statusOf doc t with
        | some entries => objSet doc t (.arr entries)
        | none => doc) = doc := by
      cases hg : objGet doc t with
      | none =>
        have hs : statusOf doc t = none := by
          rw [statusOf, hg]
        rw [hs]
      | some v =>
        cases hv : v with
        | arr entries =>
          rw [hv] at hg
          have hs : statusOf doc t = some (entries.map initVal) := by
            rw [statusOf, hg]
          have hfam : familyWF (.arr entries) = true := by
            have hmem := objGet_mem t _ doc hg
            rw [docWF, List.all_eq_true] at hwf
            exact hwf _ hmem
          rw [familyWF] at hfam
          rw [hs, initVal_map_id entries hfam]
          exact objSet_of_objGet_eq t _ doc hg
        | null => rw [hv] at hg; rw [show statusOf doc t = none from by rw [statusOf, hg]]
        | bool b => rw [hv] at hg; rw [show statusOf doc t = none from by rw [statusOf, hg]]
        | num n => rw [hv] at hg; rw [show statusOf doc t = none from by rw [statusOf, hg]]
        | str s => rw [hv] at hg; rw [show statusOf doc t = none from by rw [statusOf, hg]]
        | obj o => rw [hv] at hg; rw [show statusOf doc t = none from by rw [statusOf, hg]]
    rw [mergePendingIntoDoc, List.foldl_cons, hstep]
    exact mergePending_id doc hwf ts

end ObjectLemmas

section InvariantLemmas

/-- `markProviderUnhealthy` always stamps `lastErrorTime`. -/
theorem unhealthyUpdate_lastErrorTime (maxEC now : Nat) (msg : Option String)
    (c : ProviderConfig) :
    (unhealthyUpdate maxEC now msg c).lastErrorTime = some now := by
  unfold unhealthyUpdate
  by_cases hm : jsTruthyStr msg = true <;> simp [hm] <;> split_ifs <;> rfl

/-- `markProviderHealthy` always sets the health flag. -/
theorem healthyUpdate_isHealthy (now : Nat) (reset : Bool)
    (hcm : Option String) (c : ProviderConfig) :
    (healthyUpdate now reset hcm c).isHealthy = true := by
  unfold healthyUpdate
  by_cases hm : jsTruthyStr hcm = true <;> simp [hm] <;> split_ifs <;> rfl

/-- `updateFirst` preserves the pool invariant when the entry update
preserves the entry invariant. -/
theorem updateFirst_inv (uuid : String) (f : ProviderConfig → ProviderConfig)
    (hf : ∀ c, entryInv c → entryInv (f c)) (pool : List ProviderConfig)
    (h : poolInv pool) : poolInv (updateFirst uuid f pool) := by
  intro c' hc'
  rcases updateFirst_mem uuid f pool c' hc' with h1 | ⟨c, hc, rfl⟩
  · exact h c' h1
  · exact hf c (h c hc)

/-- The recovery sweep preserves the entry invariant. -/
theorem sweepEntry_inv (interval now : Nat) (c : ProviderConfig)
    (hc : entryInv c) : entryInv (sweepEntry interval now c) := by
  rcases sweepEntry_cases interval now c with h | h <;> rw [h]
  · exact hc
  · intro _
    simp

/-- The swept pool preserves the pool invariant. -/
theorem sweptPool_inv (interval now : Nat) (m : Option String)
    (pool : List ProviderConfig) (h : poolInv pool) :
    poolInv (sweptPool interval now m pool) := by
  intro c' hc'
  obtain ⟨ic, hic, heq⟩ := List.mem_map.mp hc'
  have hmem : ic.2 ∈ pool :=
    List.getElem?_mem (List.mem_enum_iff_getElem?.mp hic)
  rw [← heq]
  by_cases hcont : ((enabledIndices m pool).contains ic.1) = true
  · simp only [hcont, if_true]
    exact sweepEntry_inv _ _ _ (h _ hmem)
  · have hcont' : ((enabledIndices m pool).contains ic.1) = false := by
      simpa using hcont
    simp only [hcont', Bool.false_eq_true, if_false]
    exact h _ hmem

/-- The usage bump preserves the entry invariant. -/
theorem bumpUsage_inv (now : Nat) (c : ProviderConfig) (hc : entryInv c) :
    entryInv (bumpUsage now c) := by
  intro h
  exact hc h

/-- The pool a selection leaves behind preserves the invariant. -/
theorem selectProvider_pool_inv (interval now rr : Nat) (m : Option String)
    (skip : Bool) (pool : List ProviderConfig) (h : poolInv pool) :
    poolInv ((selectProvider interval now m skip pool rr).pool) := by
  have hsw := sweptPool_inv interval now m pool h
  rw [selectProvider]
  by_cases hemp : (enabledIndices m pool).isEmpty = true
  · simp only [hemp, if_true]
    exact h
  · have hemp' : (enabledIndices m pool).isEmpty = false := by simpa using hemp
    simp only [hemp', Bool.false_eq_true, if_false]
    cases hidx : (candidateIndices interval now m pool)[rr %
        (candidateIndices interval now m pool).length]? with
    | none => simpa using hsw
    | some i =>
      simp only []
      cases hpi : (sweptPool interval now m pool)[i]? with
      | none => simpa using hsw
      | some c =>
        simp only []
        cases skip with
        | true => simpa using hsw
        | false =>
          simp only [Bool.false_eq_true, if_false]
          intro d hd
          rcases List.mem_or_eq_of_mem_set hd with hd' | hd'
          · exact hsw d hd'
          · subst hd'
            exact bumpUsage_inv now c (hsw c (List.getElem?_mem hpi))

/-- Reading `isHealthy` after initialisation: the loaded value, defaulted
to `true` when absent. -/
theorem defaultPresent_get_ne (e : List (String × JVal)) (k k' : String)
    (d : JVal) (h : k ≠ k') :
    objGet (defaultPresent e k d) k' = objGet e k' := by
  rw [defaultPresent]
  exact objGet_objSet_ne k k' h _ e

/-- Reading another key through a `x || null` normalisation. -/
theorem defaultTruthy_get_ne (e : List (String × JVal)) (k k' : String)
    (h : k ≠ k') :
    objGet (defaultTruthy e k) k' = objGet e k' := by
  rw [defaultTruthy]
  exact objGet_objSet_ne k k' h _ e

/-- Reading the key a presence-default just wrote. -/
theorem defaultPresent_get_self (e : List (String × JVal)) (k : String)
    (d : JVal) :
    objGet (defaultPresent e k d) k = some ((objGet e k).getD d) := by
  rw [defaultPresent]
  exact objGet_objSet_self k _ e

/-- Reading the key a `x || null` normalisation just wrote. -/
theorem defaultTruthy_get_self (e : List (String × JVal)) (k : String) :
    objGet (defaultTruthy e k) k =
      some (match objGet e k with
        | some v => if jsTruthy v then v else .null
        | none => .null) := by
  rw [defaultTruthy]
  exact objGet_objSet_self k _ e

/-- The `isHealthy` value an initialised entry carries. -/
theorem initEntry_get_isHealthy (e : List (String × JVal)) :
    objGet (initEntry e) "isHealthy" =
      some ((objGet e "isHealthy").getD (.bool true)) := by
  simp only [initEntry]
  rw [defaultTruthy_get_ne _ _ _ (by decide),
    defaultTruthy_get_ne _ _ _ (by decide),
    defaultTruthy_get_ne _ _ _ (by decide),
    defaultTruthy_get_ne _ _ _ (by decide),
    defaultTruthy_get_ne _ _ _ (by decide),
    defaultPresent_get_ne _ _ _ _ (by decide),
    defaultPresent_get_ne _ _ _ _ (by decide),
    defaultPresent_get_ne _ _ _ _ (by decide),
    defaultPresent_get_ne _ _ _ _ (by decide),
    defaultPresent_get_self]

/-- The `lastErrorTime` value an initialised entry carries. -/
theorem initEntry_get_lastErrorTime (e : List (String × JVal)) :
    objGet (initEntry e) "lastErrorTime" =
      some (match objGet e "lastErrorTime" with
        | some v => if jsTruthy v then v else .null
        | none => .null) := by
  simp only [initEntry]
  rw [defaultTruthy_get_ne _ _ _ (by decide),
    defaultTruthy_get_ne _ _ _ (by decide),
    defaultTruthy_get_ne _ _ _ (by decide),
    defaultTruthy_get_ne _ _ _ (by decide),
    defaultTruthy_get_self,
    defaultPresent_get_ne _ _ _ _ (by decide),
    defaultPresent_get_ne _ _ _ _ (by decide),
    defaultPresent_get_ne _ _ _ _ (by decide),
    defaultPresent_get_ne _ _ _ _ (by decide),
    defaultPresent_get_ne _ _ _ _ (by decide)]

/-- A truthy JSON value is not `null`. -/
theorem jsTruthy_isNull_false (v : JVal) (h : jsTruthy v = true) :
    isNull v = false := by
  cases v <;> simp_all [jsTruthy, isNull]

end InvariantLemmas

section UsageLemmas

/-- One bonus step sets the active flag iff it was set or the bonus is an
`ACTIVE` bucket with quota left. -/
theorem accumulateBonus_active (a : Int × Int × Bool) (bo : Bonus) :
    ((accumulateBonus a bo).2.2 = true) ↔
      (a.2.2 = true ∨ bonusActive bo) := by
  unfold accumulateBonus bonusActive
  by_cases hs : (bo.status == some "ACTIVE") = true
  · have hs' : bo.status = some "ACTIVE" := by simpa using hs
    simp [hs, hs']
  · have hs2 : bo.status ≠ some "ACTIVE" := by simpa using hs
    have hs' : (bo.status == some "ACTIVE") = false := by simpa using hs
    simp [hs', hs2]

/-- The bonus fold sets the active flag iff it was set or some bonus in
the list is an `ACTIVE` bucket with quota left. -/
theorem bonusFold_active :
    ∀ (bl : List Bonus) (a : Int × Int × Bool),
      (((bl.foldl accumulateBonus a).2.2) = true) ↔
        (a.2.2 = true ∨ ∃ bo ∈ bl, bonusActive bo)
  | [], a => by simp
  | bo :: rest, a => by
    rw [List.foldl_cons, bonusFold_active rest, accumulateBonus_active]
    constructor
    · rintro (( h | h) | ⟨b, hb, hact⟩)
      · exact Or.inl h
      · exact Or.inr ⟨bo, List.mem_cons_self _ _, h⟩
      · exact Or.inr ⟨b, List.mem_cons_of_mem _ hb, hact⟩
    · rintro (h | ⟨b, hb, hact⟩)
      · exact Or.inl (Or.inl h)
      · rcases List.mem_cons.mp hb with rfl | hb'
        · exact Or.inl (Or.inr hact)
        · exact Or.inr ⟨b, hb', hact⟩

/-- One breakdown step sets the active flag iff it was set or the item
contributes an active sub-bucket. -/
theorem accumulateBreakdown_active (acc : Int × Int × Bool)
    (b : UsageBreakdownItem) :
    ((accumulateBreakdown acc b).2.2 = true) ↔
      (acc.2.2 = true ∨ itemHasActiveBucket b) := by
  unfold accumulateBreakdown itemHasActiveBucket
  cases hft : b.freeTrial with
  | none =>
    cases hbl : b.bonuses with
    | none =>
      simp [hft, hbl] <;> tauto
    | some bl =>
      rw [bonusFold_active]
      simp [hft, hbl] <;> tauto
  | some ft =>
    by_cases hst : (ft.status == some "ACTIVE") = true
    · have hst' : ft.status = some "ACTIVE" := by simpa using hst
      cases hbl : b.bonuses with
      | none =>
        simp [hft, hbl, hst, hst'] <;> tauto
      | some bl =>
        rw [bonusFold_active]
        simp [hft, hbl, hst, hst'] <;> tauto
    · have hst2 : ft.status ≠ some "ACTIVE" := by simpa using hst
      have hst' : (ft.status == some "ACTIVE") = false := by simpa using hst
      cases hbl : b.bonuses with
      | none =>
        simp [hft, hbl, hst', hst2] <;> tauto
      | some bl =>
        rw [bonusFold_active]
        simp [hft, hbl, hst', hst2] <;> tauto

/-- The breakdown fold sets the active flag iff it was set or some item
contributes an active sub-bucket. -/
theorem breakdownFold_active :
    ∀ (l : List UsageBreakdownItem) (acc : Int × Int × Bool),
      (((l.foldl accumulateBreakdown acc).2.2) = true) ↔
        (acc.2.2 = true ∨ ∃ b ∈ l, itemHasActiveBucket b)
  | [], acc => by simp
  | b :: rest, acc => by
    rw [List.foldl_cons, breakdownFold_active rest, accumulateBreakdown_active]
    constructor
    · rintro ((h | h) | ⟨b', hb', hact⟩)
      · exact Or.inl h
      · exact Or.inr ⟨b, List.mem_cons_self _ _, h⟩
      · exact Or.inr ⟨b', List.mem_cons_of_mem _ hb', hact⟩
    · rintro (h | ⟨b', hb', hact⟩)
      · exact Or.inl (Or.inl h)
      · rcases List.mem_cons.mp hb' with rfl | hb''
        · exact Or.inl (Or.inr hact)
        · exact Or.inr ⟨b', hb'', hact⟩

/-- The code's `hasActiveQuota` flag coincides with the spec's "some
contributing sub-bucket has active quota". -/
theorem aggregate_active_iff (fu : FormattedUsage) :
    ((aggregateUsage fu).2.2 = true) ↔ hasActiveBucket fu := by
  unfold aggregateUsage hasActiveBucket
  rw [breakdownFold_active]
  simp

end UsageLemmas

end PoolManager

namespace PoolManagerClaims

open PoolManager

/-- C7: after `markHealthy` with `resetUsageCount = true` the targeted entry
(the first entry whose uuid matches, with every earlier entry not matching)
satisfies `isHealthy = true`, `errorCount = 0`, `lastErrorTime = null`,
`lastErrorMessage = null`, `usageCount = 0`, and `lastHealthCheckTime` is
the current time; with `resetUsageCount = false` the entry instead has its
`usageCount` incremented and `lastUsed` set to the current time (keeping the
same healthy/zero-error fields). -/
theorem c7_mark_healthy (pool : List ProviderConfig) (i : Nat)
    (e : ProviderConfig) (uuid : String) (now : Nat)
    (hcm : Option String)
    (huuid : uuid ≠ "")
    (he : pool[i]? = some e) (hmatch : e.uuid = uuid)
    (hfirst : ∀ j, j < i → ∀ e', pool[j]? = some e' → e'.uuid ≠ uuid) :
    (∀ e1, (markProviderHealthy now uuid true hcm pool)[i]? = some e1 →
      e1.isHealthy = true ∧ e1.errorCount = 0 ∧ e1.lastErrorTime = none ∧
      e1.lastErrorMessage = none ∧ e1.usageCount = 0 ∧
      e1.lastHealthCheckTime = some now) ∧
    (∀ e2, (markProviderHealthy now uuid false hcm pool)[i]? = some e2 →
      e2.isHealthy = true ∧ e2.errorCount = 0 ∧ e2.lastErrorTime = none ∧
      e2.lastErrorMessage = none ∧ e2.usageCount = e.usageCount + 1 ∧
      e2.lastHealthCheckTime = some now ∧ e2.lastUsed = some now) := by
    have hg : (uuid == "") = false := by
      simpa using huuid
    constructor
    · intro e1 h1
      have := (updateFirst_getElem uuid (healthyUpdate now true hcm) pool i e
        he hmatch hfirst).1
      rw [markProviderHealthy, hg] at h1
      simp only [Bool.false_eq_true, if_false] at h1
      rw [this] at h1
      injection h1 with h1
      subst h1
      by_cases hc : jsTruthyStr hcm = true <;>
        simp [healthyUpdate, hc]
    · intro e2 h2
      have := (updateFirst_getElem uuid (healthyUpdate now false hcm) pool i e
        he hmatch hfirst).1
      rw [markProviderHealthy, hg] at h2
      simp only [Bool.false_eq_true, if_false] at h2
      rw [this] at h2
      injection h2 with h2
      subst h2
      by_cases hc : jsTruthyStr hcm = true <;>
        simp [healthyUpdate, hc]

/-- Witness for C7 at a concrete pool. -/
theorem c7_mark_healthy_witness :
    (∀ e1, (markProviderHealthy 5 "b" true none [c7entryA, c7entryB])[1]? = some e1 →
      e1.isHealthy = true ∧ e1.errorCount = 0 ∧ e1.lastErrorTime = none ∧
      e1.lastErrorMessage = none ∧ e1.usageCount = 0 ∧
      e1.lastHealthCheckTime = some 5) ∧
    (∀ e2, (markProviderHealthy 5 "b" false none [c7entryA, c7entryB])[1]? = some e2 →
      e2.isHealthy = true ∧ e2.errorCount = 0 ∧ e2.lastErrorTime = none ∧
      e2.lastErrorMessage = none ∧ e2.usageCount = c7entryB.usageCount + 1 ∧
      e2.lastHealthCheckTime = some 5 ∧ e2.lastUsed = some 5) :=
  c7_mark_healthy [c7entryA, c7entryB] 1 c7entryB "b" 5 none
    (by decide) (by decide) (by decide)
    (by intro j hj e' he'
        interval_cases j
        · simp only [List.getElem?_cons_zero, Option.some.injEq] at he'
          subst he'
          decide)

/-- C9: `resetCounters` zeroes `errorCount` and `usageCount` of the targeted
entry and leaves every other field of that entry, and every other entry of
the pool, unchanged — in particular it never flips `isHealthy` or clears
`lastErrorTime`/`lastErrorMessage`. -/
theorem c9_reset_counters_frame (pool : List ProviderConfig) (i : Nat)
    (e : ProviderConfig) (uuid : String)
    (huuid : uuid ≠ "")
    (he : pool[i]? = some e) (hmatch : e.uuid = uuid)
    (hfirst : ∀ j, j < i → ∀ e', pool[j]? = some e' → e'.uuid ≠ uuid) :
    (resetProviderCounters uuid pool)[i]? =
      some { e with errorCount := 0, usageCount := 0 } ∧
    (∀ e1, (resetProviderCounters uuid pool)[i]? = some e1 →
      e1.errorCount = 0 ∧ e1.usageCount = 0 ∧
      e1.uuid = e.uuid ∧ e1.isHealthy = e.isHealthy ∧
      e1.isDisabled = e.isDisabled ∧ e1.lastUsed = e.lastUsed ∧
      e1.lastErrorTime = e.lastErrorTime ∧
      e1.lastErrorMessage = e.lastErrorMessage ∧
      e1.lastHealthCheckTime = e.lastHealthCheckTime ∧
      e1.lastHealthCheckModel = e.lastHealthCheckModel ∧
      e1.usageInfo = e.usageInfo ∧
      e1.notSupportedModels = e.notSupportedModels ∧
      e1.checkModelName = e.checkModelName ∧
      e1.checkHealth = e.checkHealth) ∧
    (∀ j, j ≠ i → (resetProviderCounters uuid pool)[j]? = pool[j]?) := by
    have hg : (uuid == "") = false := by simpa using huuid
    have hu := updateFirst_getElem uuid
      (fun c => { c with errorCount := 0, usageCount := 0 }) pool i e
      he hmatch hfirst
    refine ⟨?_, ?_, ?_⟩
    · rw [resetProviderCounters, hg]
      simpa using hu.1
    · intro e1 h1
      rw [resetProviderCounters, hg] at h1
      simp only [Bool.false_eq_true, if_false] at h1
      rw [hu.1] at h1
      injection h1 with h1
      subst h1
      simp
    · intro j hj
      rw [resetProviderCounters, hg]
      simpa using hu.2 j hj

/-- Witness for C9 at a concrete pool. -/
theorem c9_reset_counters_frame_witness :
    (resetProviderCounters "a" [c9entryA, c9entryB])[0]? =
      some { c9entryA with errorCount := 0, usageCount := 0 } ∧
    (∀ e1, (resetProviderCounters "a" [c9entryA, c9entryB])[0]? = some e1 →
      e1.errorCount = 0 ∧ e1.usageCount = 0 ∧
      e1.uuid = c9entryA.uuid ∧ e1.isHealthy = c9entryA.isHealthy ∧
      e1.isDisabled = c9entryA.isDisabled ∧ e1.lastUsed = c9entryA.lastUsed ∧
      e1.lastErrorTime = c9entryA.lastErrorTime ∧
      e1.lastErrorMessage = c9entryA.lastErrorMessage ∧
      e1.lastHealthCheckTime = c9entryA.lastHealthCheckTime ∧
      e1.lastHealthCheckModel = c9entryA.lastHealthCheckModel ∧
      e1.usageInfo = c9entryA.usageInfo ∧
      e1.notSupportedModels = c9entryA.notSupportedModels ∧
      e1.checkModelName = c9entryA.checkModelName ∧
      e1.checkHealth = c9entryA.checkHealth) ∧
    (∀ j, j ≠ 0 →
      (resetProviderCounters "a" [c9entryA, c9entryB])[j]? = [c9entryA, c9entryB][j]?) :=
  c9_reset_counters_frame [c9entryA, c9entryB] 0 c9entryA "a"
    (by decide) (by decide) (by decide)
    (by intro j hj e' he'
        omega)

/-- C3: on a family whose pool consists of healthy enabled entries only
(`n ≥ 1` of them), `k` successive selections with no requested model, a
fresh round-robin index and no intervening mutation return the entries
cyclically in stable input order starting from the first entry; each
position `i` is returned `cntSel`-many times, which equals either
`⌊k/n⌋` or `⌈k/n⌉ = (k+n-1)/n`, and its `usageCount` grows by exactly that
number.  In particular five successive selections over two healthy entries
`A`, `B` return `A, B, A, B, A` and leave `usageCount` at `A:3, B:2`. -/
theorem c3_round_robin (interval now k : Nat) (pool : List ProviderConfig)
    (hne : pool ≠ [])
    (hall : ∀ c ∈ pool, c.isDisabled = false ∧ c.isHealthy = true) :
    ((selectRun interval now k pool 0).1.map (fun o => o.map (·.uuid)) =
      (List.range k).map fun j => (pool[j % pool.length]?).map (·.uuid)) ∧
    (∀ i, i < pool.length →
      ((selectRun interval now k pool 0).2.1[i]?.map (·.usageCount) =
        (pool[i]?).map fun c => c.usageCount + cntSel pool.length 0 k i) ∧
      (cntSel pool.length 0 k i = k / pool.length ∨
        cntSel pool.length 0 k i = (k + pool.length - 1) / pool.length)) ∧
    ((selectRun 600000 1000 5 [c3A, c3B] 0).1.map (fun o => o.map (·.uuid)) =
      [some "A", some "B", some "A", some "B", some "A"]) ∧
    ((selectRun 600000 1000 5 [c3A, c3B] 0).2.1.map (·.usageCount) = [3, 2]) := by
  have hn : 0 < pool.length := List.length_pos.mpr hne
  have hspec := selectRun_spec interval now k pool 0 hne hall
  refine ⟨?_, ?_, by decide, by decide⟩
  · rw [hspec.1]
    apply List.map_congr_left
    intro j _
    rw [Nat.zero_add]
  · intro i hi
    refine ⟨hspec.2.1 i, ?_⟩
    rw [cntSel_closed pool.length i hn hi k]
    by_cases hcase : i < k % pool.length
    · right
      rw [if_pos hcase, ceil_div_of_mod_ne_zero pool.length k hn (by omega)]
    · left
      rw [if_neg hcase]
      exact Nat.add_zero _

/-- Witness for C3 at the literal two-entry scenario pool. -/
theorem c3_round_robin_witness :
    ((selectRun 600000 1000 5 [c3A, c3B] 0).1.map (fun o => o.map (·.uuid)) =
      (List.range 5).map fun j =>
        (([c3A, c3B] : List ProviderConfig)[j % 2]?).map (·.uuid)) ∧
    (∀ i, i < ([c3A, c3B] : List ProviderConfig).length →
      ((selectRun 600000 1000 5 [c3A, c3B] 0).2.1[i]?.map (·.usageCount) =
        ((([c3A, c3B] : List ProviderConfig))[i]?).map fun c =>
          c.usageCount + cntSel 2 0 5 i) ∧
      (cntSel 2 0 5 i = 5 / 2 ∨ cntSel 2 0 5 i = (5 + 2 - 1) / 2)) ∧
    ((selectRun 600000 1000 5 [c3A, c3B] 0).1.map (fun o => o.map (·.uuid)) =
      [some "A", some "B", some "A", some "B", some "A"]) ∧
    ((selectRun 600000 1000 5 [c3A, c3B] 0).2.1.map (·.usageCount) = [3, 2]) :=
  c3_round_robin 600000 1000 5 [c3A, c3B] (by decide) (by decide)

/-- C10: for every pool, every requested-model filter and every stored
round-robin index value (any natural number, including one left over from
a previously longer candidate list), as soon as the candidate list is
non-empty the selection indexes it via modulo: it returns (non-null) the
candidate entry at position `rrIndex % length` of the candidate list
(usage-bumped unless `skipUsageCount`), and stores back an index strictly
less than the candidate list's length. -/
theorem c10_selection_safety (interval now rr : Nat) (m : Option String)
    (skip : Bool) (pool : List ProviderConfig)
    (hcand : candidateIndices interval now m pool ≠ []) :
    let candIdx := candidateIndices interval now m pool
    let r := selectProvider interval now m skip pool rr
    r.rrIndex = (rr + 1) % candIdx.length ∧
    r.rrIndex < candIdx.length ∧
    ∃ i ∈ candIdx, candIdx[rr % candIdx.length]? = some i ∧
      ∃ c, (sweptPool interval now m pool)[i]? = some c ∧
        r.selected = some (if skip then c else bumpUsage now c) := by
  intro candIdx r
  have hlen : 0 < candIdx.length := List.length_pos.mpr hcand
  have hpi : rr % candIdx.length < candIdx.length := Nat.mod_lt _ hlen
  have hidx : candIdx[rr % candIdx.length]? =
      some (candIdx.get ⟨rr % candIdx.length, hpi⟩) :=
    List.getElem?_eq_getElem hpi
  set i := candIdx.get ⟨rr % candIdx.length, hpi⟩ with hi
  have himem : i ∈ candIdx := List.getElem_mem hpi
  have hienb : i ∈ enabledIndices m pool := candidateIndices_subset himem
  obtain ⟨c0, hc0, -, -⟩ := mem_enabledIndices.mp hienb
  have hswept : (sweptPool interval now m pool)[i]? =
      some (if (enabledIndices m pool).contains i then
              sweepEntry interval now c0 else c0) := by
    rw [sweptPool_getElem?, hc0]
    rfl
  have hne : enabledIndices m pool ≠ [] := candidateIndices_ne_nil hcand
  have hempty : (enabledIndices m pool).isEmpty = false := by
    simpa [List.isEmpty_iff] using hne
  have hr : r = selectProvider interval now m skip pool rr := rfl
  rw [selectProvider] at hr
  simp only [hempty, Bool.false_eq_true, if_false] at hr
  rw [show candidateIndices interval now m pool = candIdx from rfl] at hr
  rw [hidx] at hr
  simp only [] at hr
  rw [hswept] at hr
  simp only [] at hr
  cases skip
  · simp only [Bool.false_eq_true, if_false] at hr
    refine ⟨by rw [hr], by rw [hr]; exact Nat.mod_lt _ hlen,
      i, himem, hidx, _, hswept, by rw [hr]; simp⟩
  · simp only [if_true] at hr
    refine ⟨by rw [hr], by rw [hr]; exact Nat.mod_lt _ hlen,
      i, himem, hidx, _, hswept, by rw [hr]; simp⟩

/-- Witness for C10: a one-entry pool traversed with a stale stored index 7
(left over from a larger pool) still selects in bounds. -/
theorem c10_selection_safety_witness :
    let candIdx := candidateIndices 600000 1000 none [c9entryB]
    let r := selectProvider 600000 1000 none false [c9entryB] 7
    r.rrIndex = (7 + 1) % candIdx.length ∧
    r.rrIndex < candIdx.length ∧
    ∃ i ∈ candIdx, candIdx[7 % candIdx.length]? = some i ∧
      ∃ c, (sweptPool 600000 1000 none [c9entryB])[i]? = some c ∧
        r.selected = some (if false then c else bumpUsage 1000 c) :=
  c10_selection_safety 600000 1000 7 none false [c9entryB] (by decide)

/-- C1 (counterexample): a debounced flush whose disk read fails with an
error other than file-not-found does abort (nothing is written, the error
is only logged) — but the pending set, cleared at the start of the flush,
is empty afterwards, not retained: with pending family `openai-custom`
and an `EACCES` read error, the pending set after the flush is `[]`
rather than `["openai-custom"]`, so no later debounced save rewrites the
family unless a new mutation re-adds it. -/
theorem c1_flush_read_error_counterexample :
    flushPendingSaves ["openai-custom"] c1status (.fail "EACCES: permission denied") =
      ([], none, some "EACCES: permission denied") ∧
    (["openai-custom"] : List String) ≠ [] :=
  ⟨rfl, by decide⟩

/-- C1 (amended): a non-ENOENT read error aborts the flush — nothing is
written and the error message lands in the catch block — but the pending
set was already cleared before the read, so it is empty after the abort;
the aborted families are flushed again only when a new mutation re-adds
them.  A missing file (ENOENT) is treated as an empty document and the
flush continues, writing the merge of the pending families into an empty
document. -/
theorem c1_flush_read_error (pending : List String) (hne : pending ≠ [])
    (status : String → Option (List JVal)) (msg : String) :
    flushPendingSaves pending status (.fail msg) = ([], none, some msg) ∧
    flushPendingSaves pending status .enoent =
      ([], some (mergePendingIntoDoc status pending []), none) := by
  have hni : pending.isEmpty = false := by
    cases pending with
    | nil => exact absurd rfl hne
    | cons a l => rfl
  refine ⟨?_, ?_⟩ <;>
    simp only [flushPendingSaves, hni, Bool.false_eq_true, if_false]

/-- Witness for C1's amended theorem at a concrete pending set. -/
theorem c1_flush_read_error_witness :
    flushPendingSaves ["openai-custom"] c1status (.fail "EACCES: permission denied") =
      ([], none, some "EACCES: permission denied") ∧
    flushPendingSaves ["openai-custom"] c1status .enoent =
      ([], some (mergePendingIntoDoc c1status ["openai-custom"] []), none) :=
  c1_flush_read_error ["openai-custom"] (by decide) c1status
    "EACCES: permission denied"

/-- C5 (counterexample): loading and re-flushing is not the identity on
every document: an entry that lacks the status fields gains them with
their defaults, so the written document differs (even as a key-value map)
from the loaded one — here the loaded entry `{uuid: "a"}` has no
`isHealthy` key but the flushed entry has `isHealthy: true`. -/
theorem c5_round_trip_counterexample :
    (flushPendingSaves ["openai-custom"] (statusOf c5doc) (.ok c5doc)).2.1 =
      some [("openai-custom", .arr [.obj (initEntry [("uuid", .str "a")])])] ∧
    objGet (initEntry [("uuid", .str "a")]) "isHealthy" = some (.bool true) ∧
    objGet [("uuid", .str "a")] "isHealthy" = none :=
  ⟨rfl, rfl, rfl⟩

/-- C5 (amended): on a well-formed document — every entry already carries
the ten status fields, the nullable ones null or truthy — loading followed
by a flush of any pending families writes back literally the document that
was read: unknown keys (`_comment`, `_originalId`), extra entry fields and
families not being flushed are all preserved.  A document with missing
status fields instead gains them with their defaults. -/
theorem c5_round_trip_wf (doc : List (String × JVal))
    (hwf : docWF doc = true) (pending : List String) (hne : pending ≠ []) :
    flushPendingSaves pending (statusOf doc) (.ok doc) =
      ([], some doc, none) := by
  have hni : pending.isEmpty = false := by
    cases pending with
    | nil => exact absurd rfl hne
    | cons a l => rfl
  simp only [flushPendingSaves, hni, Bool.false_eq_true, if_false]
  rw [mergePending_id doc hwf pending]

/-- Witness for C5's amended theorem: a two-family document whose entry
carries `_comment`/`_originalId` annotations round-trips unchanged. -/
theorem c5_round_trip_wf_witness :
    flushPendingSaves ["openai-custom"] (statusOf c5wfdoc) (.ok c5wfdoc) =
      ([], some c5wfdoc, none) :=
  c5_round_trip_wf c5wfdoc (by decide) ["openai-custom"] (by decide)

/-- C2 (counterexample): initialisation does not establish the invariant
for every on-disk document: loading the entry
`{uuid: "a", isHealthy: false}` (no `lastErrorTime`) yields an entry with
`isHealthy == false` and `lastErrorTime == null`. -/
theorem c2_unhealthy_invariant_counterexample :
    objGet (initEntry c2entry0) "isHealthy" = some (.bool false) ∧
    objGet (initEntry c2entry0) "lastErrorTime" = some .null :=
  ⟨rfl, rfl⟩

/-- C2 (amended): the invariant `isHealthy == false → lastErrorTime ≠ null`
is preserved by every operation — markUnhealthy (which always stamps
`lastErrorTime`), markHealthy, resetCounters, disable, enable, the
recovery-failure and usage-probe updates, and selection (including its
recovery sweep) — and is established by initialisation exactly for
documents whose unhealthy entries already carry a truthy `lastErrorTime`;
an entry loaded with `isHealthy: false` and no (or falsy) `lastErrorTime`
violates it after initialisation. -/
theorem c2_unhealthy_invariant (maxEC now interval rr : Nat) (uuid : String)
    (msg hcm mdl : Option String) (reset skip : Bool) (rm : Option String)
    (info : UsageInfo) (pool : List ProviderConfig) (hinv : poolInv pool)
    (e : List (String × JVal)) (hej : entryInvJ e) :
    poolInv (markProviderUnhealthy maxEC now uuid msg pool) ∧
    poolInv (markProviderHealthy now uuid reset hcm pool) ∧
    poolInv (resetProviderCounters uuid pool) ∧
    poolInv (disableProvider uuid pool) ∧
    poolInv (enableProvider uuid pool) ∧
    poolInv (recoveryFailureUpdate now uuid msg mdl pool) ∧
    poolInv (usageProbeUpdate now uuid info pool) ∧
    poolInv ((selectProvider interval now rm skip pool rr).pool) ∧
    entryInvJ (initEntry e) ∧
    (isBoolFalse ((objGet (initEntry e) "isHealthy").getD .null) = true →
      isNull ((objGet (initEntry e) "lastErrorTime").getD .null) = false) := by
  have hInit : ∀ w : JVal, objGet e "lastErrorTime" = some w →
      jsTruthy w = true →
      objGet (initEntry e) "lastErrorTime" = some w := by
    intro w hw ht
    rw [initEntry_get_lastErrorTime, hw]
    simp [ht]
  have hAnte : isBoolFalse ((objGet (initEntry e) "isHealthy").getD .null) = true →
      isBoolFalse ((objGet e "isHealthy").getD .null) = true := by
    intro hF
    rw [initEntry_get_isHealthy] at hF
    cases hg : objGet e "isHealthy" with
    | none =>
      rw [hg] at hF
      simp [isBoolFalse] at hF
    | some v =>
      rw [hg] at hF
      simpa using hF
  have hLET : isBoolFalse ((objGet (initEntry e) "isHealthy").getD .null) = true →
      ∃ w, objGet (initEntry e) "lastErrorTime" = some w ∧ jsTruthy w = true := by
    intro hF
    have hT := hej (hAnte hF)
    cases hg : objGet e "lastErrorTime" with
    | none =>
      rw [hg] at hT
      simp [jsTruthy] at hT
    | some w =>
      rw [hg] at hT
      simp only [Option.getD_some] at hT
      exact ⟨w, hInit w hg hT, hT⟩
  refine ⟨?_, ?_, ?_, ?_, ?_, ?_, ?_,
    selectProvider_pool_inv interval now rr rm skip pool hinv, ?_, ?_⟩
  · rw [markProviderUnhealthy]
    by_cases hg : (uuid == "") = true
    · simp only [hg, if_true]; exact hinv
    · have hg' : (uuid == "") = false := by simpa using hg
      simp only [hg', Bool.false_eq_true, if_false]
      refine updateFirst_inv _ _ (fun c _ => ?_) pool hinv
      intro _
      rw [unhealthyUpdate_lastErrorTime]
      simp
  · rw [markProviderHealthy]
    by_cases hg : (uuid == "") = true
    · simp only [hg, if_true]; exact hinv
    · have hg' : (uuid == "") = false := by simpa using hg
      simp only [hg', Bool.false_eq_true, if_false]
      refine updateFirst_inv _ _ (fun c _ => ?_) pool hinv
      intro hfalse
      rw [healthyUpdate_isHealthy] at hfalse
      exact absurd hfalse (by simp)
  · rw [resetProviderCounters]
    by_cases hg : (uuid == "") = true
    · simp only [hg, if_true]; exact hinv
    · have hg' : (uuid == "") = false := by simpa using hg
      simp only [hg', Bool.false_eq_true, if_false]
      refine updateFirst_inv _ _ (fun c hc => ?_) pool hinv
      intro h
      exact hc h
  · rw [disableProvider]
    by_cases hg : (uuid == "") = true
    · simp only [hg, if_true]; exact hinv
    · have hg' : (uuid == "") = false := by simpa using hg
      simp only [hg', Bool.false_eq_true, if_false]
      refine updateFirst_inv _ _ (fun c hc => ?_) pool hinv
      intro h
      exact hc h
  · rw [enableProvider]
    by_cases hg : (uuid == "") = true
    · simp only [hg, if_true]; exact hinv
    · have hg' : (uuid == "") = false := by simpa using hg
      simp only [hg', Bool.false_eq_true, if_false]
      refine updateFirst_inv _ _ (fun c hc => ?_) pool hinv
      intro h
      exact hc h
  · refine updateFirst_inv _ _ (fun c hc => ?_) pool hinv
    by_cases hm : jsTruthyStr mdl = true
    · simp only [recoveryFailureUpdate, hm, if_true]
      intro h
      exact hc h
    · have hm' : jsTruthyStr mdl = false := by simpa using hm
      simp only [recoveryFailureUpdate, hm', Bool.false_eq_true, if_false]
      intro h
      exact hc h
  · refine updateFirst_inv _ _ (fun c hc => ?_) pool hinv
    intro h
    exact hc h
  · intro hF
    obtain ⟨w, hw, ht⟩ := hLET hF
    rw [hw]
    simp only [Option.getD_some]
    exact ht
  · intro hF
    obtain ⟨w, hw, ht⟩ := hLET hF
    rw [hw]
    simp only [Option.getD_some]
    exact jsTruthy_isNull_false w ht

/-- Witness for C2's amended theorem at a concrete pool and entry. -/
theorem c2_unhealthy_invariant_witness :
    poolInv (markProviderUnhealthy 3 5 "u1" (some "err") c2pool) ∧
    poolInv (markProviderHealthy 5 "u1" true (some "model") c2pool) ∧
    poolInv (resetProviderCounters "u1" c2pool) ∧
    poolInv (disableProvider "u1" c2pool) ∧
    poolInv (enableProvider "u1" c2pool) ∧
    poolInv (recoveryFailureUpdate 5 "u1" (some "err") (some "m2") c2pool) ∧
    poolInv (usageProbeUpdate 5 "u1" c2info c2pool) ∧
    poolInv ((selectProvider 600000 5 none false c2pool 7).pool) ∧
    entryInvJ (initEntry c2wfentry) ∧
    (isBoolFalse ((objGet (initEntry c2wfentry) "isHealthy").getD .null) = true →
      isNull ((objGet (initEntry c2wfentry) "lastErrorTime").getD .null) = false) :=
  c2_unhealthy_invariant 3 5 600000 7 "u1" (some "err") (some "model")
    (some "m2") true false none c2info c2pool
    (by unfold poolInv entryInv; decide) c2wfentry
    (by unfold entryInvJ; decide)

/-- C4 (counterexample): on the snapshot
`usageBreakdown = [{currentUsage: 100, usageLimit: 100}]` the verdict is
unhealthy with `remaining == 0` as the claim says, but the unhealthy
message is the code's literal Chinese string `配额已用完 (100/100)`
("quota exhausted"), not the English string `"quota exhausted (100/100)"`
the claim asserts. -/
theorem c4_usage_verdict_counterexample :
    (analyzeUsageHealth c4snapshot).success = false ∧
    (analyzeUsageHealth c4snapshot).errorMessage = some "配额已用完 (100/100)" ∧
    (analyzeUsageHealth c4snapshot).usageInfo.remaining = 0 ∧
    (analyzeUsageHealth c4snapshot).errorMessage ≠
      some "quota exhausted (100/100)" :=
  ⟨by decide, by decide, by decide, by decide⟩

/-- C4 (amended): for every normalized usage snapshot the Mode-A verdict is
healthy iff some contributing sub-bucket has active quota and
`totalLimit − totalUsed > 0`; `usageInfo.remaining = totalLimit − totalUsed`;
`usagePercent = round(100·totalUsed/totalLimit)` (i.e.
`⌊(200·used + limit) / (2·limit)⌋`) when `totalLimit > 0`, else `0`; and the
unhealthy message is the code's literal `配额已用完 (used/limit)` — of which
the spec's "quota exhausted (used/limit)" is the English rendering — when
`remaining ≤ 0`, else `没有可用的活跃配额` ("no active quota"). -/
theorem c4_usage_verdict (fu : FormattedUsage) :
    ((analyzeUsageHealth fu).success = true ↔
      hasActiveBucket fu ∧
        0 < (aggregateUsage fu).2.1 - (aggregateUsage fu).1) ∧
    ((analyzeUsageHealth fu).usageInfo.remaining =
      (aggregateUsage fu).2.1 - (aggregateUsage fu).1) ∧
    ((analyzeUsageHealth fu).usageInfo.usagePercent =
      if 0 < (aggregateUsage fu).2.1 then
        jsRoundRatio100 (aggregateUsage fu).1 (aggregateUsage fu).2.1
      else 0) ∧
    ((analyzeUsageHealth fu).success = false →
      (analyzeUsageHealth fu).errorMessage =
        some (if (aggregateUsage fu).2.1 - (aggregateUsage fu).1 ≤ 0 then
            "配额已用完 (" ++ toString (aggregateUsage fu).1 ++ "/" ++
              toString (aggregateUsage fu).2.1 ++ ")"
          else "没有可用的活跃配额")) := by
  have hact := aggregate_active_iff fu
  by_cases hq : (aggregateUsage fu).2.2 = true <;>
    by_cases hrem : (0 : Int) < (aggregateUsage fu).2.1 - (aggregateUsage fu).1
  · have hle : ¬((aggregateUsage fu).2.1 - (aggregateUsage fu).1 ≤ 0) := by omega
    refine ⟨?_, ?_, ?_, ?_⟩ <;>
      simp [analyzeUsageHealth, hq, hrem, hle, hact.mp hq]
  · have hle : (aggregateUsage fu).2.1 - (aggregateUsage fu).1 ≤ 0 := by omega
    refine ⟨?_, ?_, ?_, ?_⟩ <;>
      simp [analyzeUsageHealth, hq, hrem, hact, hle]
  · have hq' : (aggregateUsage fu).2.2 = false := by simpa using hq
    have hle : ¬((aggregateUsage fu).2.1 - (aggregateUsage fu).1 ≤ 0) := by omega
    have hact' : ¬hasActiveBucket fu := by
      rw [← hact, hq']
      simp
    refine ⟨?_, ?_, ?_, ?_⟩ <;>
      simp [analyzeUsageHealth, hq', hrem, hact', hle]
  · have hq' : (aggregateUsage fu).2.2 = false := by simpa using hq
    have hle : (aggregateUsage fu).2.1 - (aggregateUsage fu).1 ≤ 0 := by omega
    refine ⟨?_, ?_, ?_, ?_⟩ <;>
      simp [analyzeUsageHealth, hq', hrem, hle]

/-- Witness for C4's amended theorem at the quota-exhaustion snapshot. -/
theorem c4_usage_verdict_witness :
    (analyzeUsageHealth c4snapshot).errorMessage =
      some (if (aggregateUsage c4snapshot).2.1 - (aggregateUsage c4snapshot).1 ≤ 0 then
          "配额已用完 (" ++ toString (aggregateUsage c4snapshot).1 ++ "/" ++
            toString (aggregateUsage c4snapshot).2.1 ++ ")"
        else "没有可用的活跃配额") :=
  (c4_usage_verdict c4snapshot).2.2.2 (by decide)

/-- C6: for a `claude-kiro-oauth` entry the Mode-B chat-send probe builds
exactly two payload shapes in order — first
`{messages: [{role: "user", content: "Hi"}], model, max_tokens: 1}`, then
the Gemini-style `contents` payload with `max_tokens: 1`; the default
probe model (no truthy `checkModelName`) is `claude-haiku-4-5`; the first
successful adapter call yields
`{success: true, modelName, errorMessage: null}` — in particular when the
first payload throws and the second succeeds — and when every attempt
fails the probe returns `success = false` with the last error message. -/
theorem c6_kiro_mode_b_payloads (m e1 : String)
    (gen : JVal → Except String Unit) (cm : Option String) :
    (buildHealthCheckRequests "claude-kiro-oauth" m =
      [kiroChatPayload m, kiroContentsPayload]) ∧
    (kiroChatPayload m =
      .obj [("messages", .arr [.obj [("role", .str "user"), ("content", .str "Hi")]]),
        ("model", .str m), ("max_tokens", .num 1)]) ∧
    (kiroContentsPayload =
      .obj [("contents", .arr [.obj [("role", .str "user"),
        ("parts", .arr [.obj [("text", .str "Hi")]])]]), ("max_tokens", .num 1)]) ∧
    (jsTruthyStr cm = false →
      resolveHealthCheckModel cm "claude-kiro-oauth" = some "claude-haiku-4-5") ∧
    (gen (kiroChatPayload m) = .ok () →
      healthCheckLoop gen m (buildHealthCheckRequests "claude-kiro-oauth" m) none =
        { success := true, modelName := some m, errorMessage := none }) ∧
    (gen (kiroChatPayload m) = .error e1 → gen kiroContentsPayload = .ok () →
      healthCheckLoop gen m (buildHealthCheckRequests "claude-kiro-oauth" m) none =
        { success := true, modelName := some m, errorMessage := none }) ∧
    (∀ e2, gen (kiroChatPayload m) = .error e1 →
      gen kiroContentsPayload = .error e2 →
      healthCheckLoop gen m (buildHealthCheckRequests "claude-kiro-oauth" m) none =
        { success := false, modelName := some m,
          errorMessage := jsOrStr (some e2) (some "All health check attempts failed") }) := by
  have hbuild : buildHealthCheckRequests "claude-kiro-oauth" m =
      [kiroChatPayload m, kiroContentsPayload] := by
    rw [buildHealthCheckRequests,
      show strStartsWith "claude-kiro-oauth" "gemini" = false from by decide,
      show strStartsWith "claude-kiro-oauth" "claude-kiro" = true from by decide]
    simp
  refine ⟨hbuild, rfl, rfl, ?_, ?_, ?_, ?_⟩
  · intro hcm
    rw [resolveHealthCheckModel, jsOrStr, hcm]
    rfl
  · intro h1
    rw [hbuild, healthCheckLoop, h1]
  · intro h1 h2
    rw [hbuild, healthCheckLoop, h1]
    simp only []
    rw [healthCheckLoop, h2]
  · intro e2 h1 h2
    rw [hbuild, healthCheckLoop, h1]
    simp only []
    rw [healthCheckLoop, h2]
    simp only []
    rw [healthCheckLoop]

/-- Witness for C6: the literal fallback scenario — the `messages` payload
throws, the `contents` payload succeeds, and the probe reports success
with the family default model `claude-haiku-4-5`. -/
theorem c6_kiro_mode_b_payloads_witness :
    healthCheckLoop c6gen "claude-haiku-4-5"
        (buildHealthCheckRequests "claude-kiro-oauth" "claude-haiku-4-5") none =
      { success := true, modelName := some "claude-haiku-4-5",
        errorMessage := none } ∧
    resolveHealthCheckModel none "claude-kiro-oauth" = some "claude-haiku-4-5" :=
  ⟨(c6_kiro_mode_b_payloads "claude-haiku-4-5" "Improperly formed request"
      c6gen none).2.2.2.2.2.1 rfl rfl,
   (c6_kiro_mode_b_payloads "claude-haiku-4-5" "Improperly formed request"
      c6gen none).2.2.2.1 rfl⟩

/-- C8: for a `claude-kiro-oauth` entry whose `getUsageLimits` call throws,
the Mode-A usage probe returns `null` (not a failure verdict), and
`_checkProviderHealth` then falls back to the Mode-B chat-send retry loop
for the same entry. -/
theorem c8_usage_throw_falls_back (cm : Option String)
    (checkHealth force : Bool) (hgate : checkHealth = true ∨ force = true)
    (msg : String) (gen : JVal → Except String Unit) :
    checkProviderHealthByUsage "claude-kiro-oauth" true (.error msg) = none ∧
    (∀ m, resolveHealthCheckModel cm "claude-kiro-oauth" = some m →
      checkProviderHealth "claude-kiro-oauth" cm checkHealth force true
          (.error msg) gen =
        some (healthCheckLoop gen m
          (buildHealthCheckRequests "claude-kiro-oauth" m) none)) := by
  have hbyusage : checkProviderHealthByUsage "claude-kiro-oauth" true
      (.error msg) = none := rfl
  refine ⟨hbyusage, ?_⟩
  intro m hm
  have hgb : (!checkHealth && !force) = false := by
    rcases hgate with h | h <;> simp [h]
  rw [checkProviderHealth]
  simp only [hgb, Bool.false_eq_true, if_false]
  rw [show ("claude-kiro-oauth" == MODEL_PROVIDER_KIRO_API) = true from rfl]
  simp only [if_true]
  rw [hbyusage]
  simp only []
  rw [hm]

/-- Witness for C8: a concrete Kiro entry with `checkHealth` enabled, a
throwing quota call and an all-accepting chat oracle. -/
theorem c8_usage_throw_falls_back_witness :
    checkProviderHealthByUsage "claude-kiro-oauth" true
        (.error "network error") = none ∧
    checkProviderHealth "claude-kiro-oauth" none true false true
        (.error "network error") c8gen =
      some (healthCheckLoop c8gen "claude-haiku-4-5"
        (buildHealthCheckRequests "claude-kiro-oauth" "claude-haiku-4-5") none) :=
  ⟨(c8_usage_throw_falls_back none true false (Or.inl rfl) "network error"
      c8gen).1,
   (c8_usage_throw_falls_back none true false (Or.inl rfl) "network error"
      c8gen).2 "claude-haiku-4-5" rfl⟩

end PoolManagerClaims
